import Mathlib

/-!
# WaykiChain: the linked UTXO transaction (`src/tx/coinutxotx.cpp`)

A shallow embedding of `CCoinUTXOTx::CheckTx` and `CCoinUTXOTx::ExecuteTx`.

* 64-bit unsigned fields are natural numbers; where the C++ adds two of them the
  embedding reduces the sum modulo `2 ^ 64`, as `uint64_t` addition does.
* `uint256` values are natural numbers; the default-constructed `uint256()` is `0`.
* A `return state.DoS(...)` statement is a `Failure.dos` value recording exactly the
  arguments the call passes; `return true` is `Except.ok ()`.
* Everything declared outside the three source files (the check helpers of the
  base transaction, the account, the stores) is either a field of `External`
  or a definition marked as modelled from the specification.
-/

namespace WaykiChain

/-! ## Data model -/

/-- The modulus of `uint64_t` arithmetic. -/
def UINT64_MOD : Nat := 2 ^ 64

/-- A 256-bit hash value; `uint256()` is `0`. -/
abbrev uint256 := Nat

/-- The asset symbol of a balance or of an output. -/
abbrev TokenSymbol := String

/-- A raw public key, kept opaque. -/
abbrev CPubKey := Nat

/-- Modelled from the spec: the identity reference `CUserID` (declared in a header that
is not part of the excerpt): "an opaque value identifying a participant; may resolve
to a registered account id or a raw public key. Equality is by canonical form." -/
inductive CUserID where
  | regId (id : Nat)
  | pubKey (key : CPubKey)
deriving DecidableEq, Repr

/-- The test `uid.is<CPubKey>()`. -/
def CUserID.isPubKey : CUserID → Bool
  | .pubKey _ => true
  | .regId _ => false

/-- Modelled from the spec: the hash-lock part of an output (`htlc_cond`, declared in
`coinutxotx.h`, which is not part of the excerpt):
"hash_lock: { secret_hash: Hash256 (zero = disabled), collect_timeout: u64 }". -/
structure HTLCCondition where
  secret_hash : uint256
  collect_timeout : Nat
deriving DecidableEq, Repr

/-- Modelled from the spec: the UTXO descriptor (`utxo`, declared in `coinutxotx.h`,
which is not part of the excerpt), with the field names the source uses:
`is_null`, `coin_symbol`, `coin_amount`, `to_uid` (beneficiary), `lock_duration`,
`htlc_cond`. -/
structure UTXOEntity where
  coin_symbol : TokenSymbol
  coin_amount : Nat
  to_uid : CUserID
  lock_duration : Nat
  htlc_cond : HTLCCondition
  is_null : Bool
deriving DecidableEq, Repr

/-- Modelled from the spec: the linked UTXO transaction (class declared in
`coinutxotx.h`, which is not part of the excerpt), with the member names the source
uses: `txUid` (sender), `fee_symbol`, `llFees`, `valid_height`, `memo`,
`prior_utxo_txid` (zero for a genesis link), `prior_utxo_secret`, `utxo`. -/
structure CCoinUTXOTx where
  txUid : CUserID
  valid_height : Nat
  fee_symbol : TokenSymbol
  llFees : Nat
  memo : String
  signature : List Nat
  prior_utxo_txid : uint256
  prior_utxo_secret : String
  utxo : UTXOEntity
deriving DecidableEq, Repr

/-- Modelled from the spec: the account (`CAccount`, declared outside the excerpt).
`uid` is the canonical identity under which the account store keeps the account,
`regid` the registered account id once one is assigned, `owner_pubkey` the key used
to verify signatures, `free_amount` the `FREE_VALUE` balance of every symbol. -/
structure CAccount where
  uid : CUserID
  regid : Option Nat
  owner_pubkey : CPubKey
  free_amount : TokenSymbol → Nat

/-- The balance categories; the excerpt reads `FREE_VALUE` only. -/
inductive BalanceType where
  | FREE_VALUE
deriving DecidableEq, Repr

/-- The balance operations; the excerpt uses `SUB_FREE` only. -/
inductive BalanceOpType where
  | SUB_FREE
deriving DecidableEq, Repr

/-- Modelled from the spec: `get_balance(symbol, category) -> u64` of the account
(`CAccount::GetBalance`, defined outside the excerpt). -/
def CAccount.GetBalance (a : CAccount) (symbol : TokenSymbol) : BalanceType → Nat
  | .FREE_VALUE => a.free_amount symbol

/-- Modelled from the spec: `adjust_balance(symbol, category, delta) ->
Result<(), InsufficientFunds>` of the account (`CAccount::OperateBalance`, defined
outside the excerpt): a debit of the free balance fails when the balance is smaller
than the amount and otherwise subtracts it. -/
def CAccount.OperateBalance (a : CAccount) (symbol : TokenSymbol) :
    BalanceOpType → Nat → Option CAccount
  | .SUB_FREE, value =>
    if a.free_amount symbol < value then none
    else some { a with free_amount := Function.update a.free_amount symbol (a.free_amount symbol - value) }

/-- The receipt codes; the excerpt uses `TRANSFER_UTXO_COINS` only. -/
inductive ReceiptCode where
  | TRANSFER_UTXO_COINS
deriving DecidableEq, Repr

/-- Modelled from the spec: the receipt record
"{from: tx.sender, to: output.beneficiary, symbol, amount, kind}" (`CReceipt`,
declared outside the excerpt), in the argument order of the constructor call. -/
structure CReceipt where
  from_uid : CUserID
  to_uid : CUserID
  coin_symbol : TokenSymbol
  coin_amount : Nat
  code : ReceiptCode
deriving DecidableEq, Repr

/-! ## Ledger accessors -/

/-- Modelled from the spec: the account store (`accountCache`, declared outside the
excerpt), "keyed lookups only": the accounts it holds. -/
structure CAccountDBCache where
  accounts : List CAccount

/-- Modelled from the spec: the UTXO-chain store (`txUtxoCache`, declared outside the
excerpt): "each committed linked-UTXO transaction is stored keyed by its id, with
its commit height". -/
structure CTxUTXODBCache where
  entries : List (uint256 × Nat × CCoinUTXOTx)
deriving DecidableEq, Repr

/-- Modelled from the spec: the receipt store (`txReceiptCache`, declared outside the
excerpt): the receipt list kept under each transaction id. -/
structure CTxReceiptDBCache where
  entries : List (uint256 × List CReceipt)
deriving DecidableEq, Repr

/-- The three stores a transaction context points to (`CCacheWrapper`). -/
structure CCacheWrapper where
  accountCache : CAccountDBCache
  txUtxoCache : CTxUTXODBCache
  txReceiptCache : CTxReceiptDBCache

/-- The execution context: `context.height` (as converted to `uint64_t` by the
comparisons that read it), `context.index`, and the stores behind `context.pCw`. -/
structure CTxExecuteContext where
  height : Nat
  index : Nat
  cw : CCacheWrapper

/-- Modelled from the spec: `get_account(identity) -> Option<Account>`
(`CAccountDBCache::GetAccount`, defined outside the excerpt). -/
def CAccountDBCache.GetAccount (db : CAccountDBCache) (uid : CUserID) : Option CAccount :=
  db.accounts.find? (fun a => decide (a.uid = uid))

/-- Modelled from the spec: `get_by_txid(Hash256) -> Option<(commit_height, tx)>`
(`CTxUTXODBCache::GetUtxoTx`, defined outside the excerpt). -/
def CTxUTXODBCache.GetUtxoTx (db : CTxUTXODBCache) (txid : uint256) : Option (Nat × CCoinUTXOTx) :=
  (db.entries.find? (fun e => decide (e.1 = txid))).map (fun e => e.2)

/-- The receipts kept under a transaction id, if any. -/
def CTxReceiptDBCache.GetTxReceipts (db : CTxReceiptDBCache) (txid : uint256) : Option (List CReceipt) :=
  (db.entries.find? (fun e => decide (e.1 = txid))).map (fun e => e.2)

/-! ## What the excerpt calls but does not define -/

/-- The helpers of the base transaction and of the node that `coinutxotx.cpp` calls
and that are defined outside the excerpt. Each field gives the verdict of one of
them; `true` means that the check lets the transaction through or that the write
is carried out. -/
structure External where
  /-- The gate `IMPLEMENT_DISABLE_TX_PRE_STABLE_COIN_RELEASE` at a height. -/
  stableCoinReleased : Nat → Bool
  /-- The check `IMPLEMENT_CHECK_TX_MEMO`. -/
  checkMemo : CCoinUTXOTx → Bool
  /-- The check `IMPLEMENT_CHECK_TX_REGID_OR_PUBKEY(txUid)`. -/
  checkRegidOrPubkey : CUserID → Bool
  /-- The call `CheckFee(context)`. -/
  CheckFee : CCoinUTXOTx → CTxExecuteContext → Bool
  /-- The call `CPubKey::IsFullyValid()`. -/
  IsFullyValid : CPubKey → Bool
  /-- The check `IMPLEMENT_CHECK_TX_SIGNATURE(pubKey)`. -/
  checkSignature : CCoinUTXOTx → CPubKey → Bool
  /-- The call `CUserID::ToString()`. -/
  ToString : CUserID → String
  /-- The call `GetHash()`: the id of a transaction. -/
  GetHash : CCoinUTXOTx → uint256
  /-- The account id `GenerateRegID` assigns in a context, or `none` when it fails. -/
  newRegId : CTxExecuteContext → Option Nat
  /-- Whether `SaveAccount` carries out the write. -/
  saveAccountOk : CAccountDBCache → CAccount → Bool
  /-- Whether `SetTxReceipts` carries out the write. -/
  setTxReceiptsOk : CTxReceiptDBCache → uint256 → List CReceipt → Bool

/-- Modelled from the spec: `save_account(Account)` (`CAccountDBCache::SaveAccount`,
defined outside the excerpt): the account replaces the one kept under its identity.
The C++ call reports failure through its boolean result; `none` is that failure. -/
def CAccountDBCache.SaveAccount (ext : External) (db : CAccountDBCache) (a : CAccount) :
    Option CAccountDBCache :=
  if ext.saveAccountOk db a then
    some { accounts := a :: db.accounts.filter (fun b => !decide (b.uid = a.uid)) }
  else none

/-- Modelled from the spec: `set_receipts(txid, list_of_receipt)`
(`CTxReceiptDBCache::SetTxReceipts`, defined outside the excerpt): the list replaces
the one kept under the id. `none` is the failure the C++ call reports. -/
def CTxReceiptDBCache.SetTxReceipts (ext : External) (db : CTxReceiptDBCache) (txid : uint256)
    (receipts : List CReceipt) : Option CTxReceiptDBCache :=
  if ext.setTxReceiptsOk db txid receipts then
    some { entries := (txid, receipts) :: db.entries.filter (fun e => !decide (e.1 = txid)) }
  else none

/-- Modelled from the spec: step 2 of execution (`CBaseTx::GenerateRegID`, defined
outside the excerpt): when the sender identity is a raw public key without a
registered account id, "allocate/assign a new account id as a side effect of this
transaction". `none` is the failure the C++ call reports. -/
def GenerateRegID (ext : External) (tx : CCoinUTXOTx) (context : CTxExecuteContext)
    (account : CAccount) : Option CAccount :=
  if tx.txUid.isPubKey && account.regid.isNone then
    match ext.newRegId context with
    | some r => some { account with regid := some r }
    | none => none
  else some account

/-! ## Rejections -/

/-- The reject codes the excerpt names. -/
inductive RejectCode where
  | REJECT_INVALID
  | READ_ACCOUNT_FAIL
  | UPDATE_ACCOUNT_FAIL
deriving DecidableEq, Repr

/-- An argument that follows the format string inside `ERRORMSG(...)`. -/
inductive LogArg where
  | code (c : RejectCode)
  | text (s : String)
deriving DecidableEq, Repr

/-- The arguments of one `state.DoS(level, ERRORMSG(fmt, args...), code, reason)`
call. `ERRORMSG` logs and yields `false`, which is the value `DoS` returns. The
reject code and the reject reason are `none` when the call does not pass them to
`DoS` (they are then whatever `DoS` declares as defaults). -/
structure DoSCall where
  level : Nat
  errorMsg : String
  errorArgs : List LogArg
  chRejectCode : Option RejectCode
  strRejectReason : Option String
deriving DecidableEq, Repr

/-- Why `CheckTx` or `ExecuteTx` returned `false`. -/
inductive Failure where
  /-- A helper defined outside the excerpt returned `false`. -/
  | external (helper : String)
  /-- A `return state.DoS(...)` statement of the excerpt. -/
  | dos (call : DoSCall)
deriving DecidableEq, Repr

/-- The statement `return state.DoS(100, ERRORMSG(msg), code, reason)`. -/
def dosWith (msg : String) (args : List LogArg) (code : RejectCode) (reason : String) : Failure :=
  .dos { level := 100, errorMsg := msg, errorArgs := args, chRejectCode := some code,
         strRejectReason := some reason }

/-- The statement `return state.DoS(100, ERRORMSG(msg, code, reason))`: the closing
parenthesis of `ERRORMSG` comes after the code and the reason, so both are arguments
of `ERRORMSG` and `DoS` receives two arguments. -/
def dosInside (msg : String) (code : RejectCode) (reason : String) : Failure :=
  .dos { level := 100, errorMsg := msg, errorArgs := [.code code, .text reason],
         chRejectCode := none, strRejectReason := none }

/-! ## `CCoinUTXOTx::CheckTx` -/

/-- Lines 63-73: the hash-lock test. The source formats `text` from the prior sender,
the supplied secret and the prior `valid_height`; the digest line is commented out
(`FIXME!!!`), so `hash` is the default-constructed `uint256`, and the test is
`hash != priorUtxoTx.utxo.htlc_cond.secret_hash`. -/
def wrongSecret (ext : External) (tx priorUtxoTx : CCoinUTXOTx) : Bool :=
  let _text : String :=
    ext.ToString priorUtxoTx.txUid ++ tx.prior_utxo_secret ++ toString priorUtxoTx.valid_height
  let hash : uint256 := 0
  decide (hash ≠ priorUtxoTx.utxo.htlc_cond.secret_hash)

/-- Lines 77-79: `timeout_height`, a sum of three `uint64_t` values. -/
def timeout_height (priorTxBlockHeight : Nat) (priorUtxoTx : CCoinUTXOTx) : Nat :=
  ((priorTxBlockHeight + priorUtxoTx.utxo.lock_duration) % UINT64_MOD
    + priorUtxoTx.utxo.htlc_cond.collect_timeout) % UINT64_MOD

/-- Lines 28-43: the branch `prior_utxo_txid == uint256()` (first-time utxo). -/
def checkFirstTimeUtxo (tx : CCoinUTXOTx) (srcAccount : CAccount) : Except Failure Unit :=
  if tx.utxo.is_null then
    .error (dosInside "CCoinUTXOTx::CheckTx, utxo is null!" .REJECT_INVALID "utxo-is-null")
  else if tx.utxo.coin_amount = 0 then
    .error (dosInside "CCoinUTXOTx::CheckTx, utxo.coin_amount is zero!" .REJECT_INVALID
      "zero-utxo-coin-amount")
  else if srcAccount.GetBalance tx.utxo.coin_symbol .FREE_VALUE < tx.utxo.coin_amount then
    .error (dosInside "CCoinUTXOTx::CheckTx, account balance coin_amount insufficient!"
      .REJECT_INVALID "insufficient-account-coin-amount")
  else .ok ()

/-- Lines 44-103: the branch that consumes an existing prior utxo. -/
def checkPriorUtxo (ext : External) (tx : CCoinUTXOTx) (context : CTxExecuteContext) :
    Except Failure Unit :=
  match context.cw.txUtxoCache.GetUtxoTx tx.prior_utxo_txid with
  | none =>
    .error (dosInside "CCoinUTXOTx::CheckTx, load prior utxo error!" .REJECT_INVALID
      "load-prior-utxo-err")
  | some (priorTxBlockHeight, priorUtxoTx) =>
    if priorUtxoTx.utxo.is_null then
      .error (dosInside "CCoinUTXOTx::CheckTx, prior utxo being null!" .REJECT_INVALID
        "prior-utxo-null-err")
    else if context.height < (priorTxBlockHeight + priorUtxoTx.utxo.lock_duration) % UINT64_MOD then
      .error (dosInside "CCoinUTXOTx::CheckTx, prior utxo being locked!" .REJECT_INVALID
        "prior-utxo-locked-err")
    else if priorUtxoTx.utxo.htlc_cond.secret_hash ≠ 0 ∧ wrongSecret ext tx priorUtxoTx = true then
      .error (dosInside "CCoinUTXOTx::CheckTx, supplied wrong secret to prior utxo" .REJECT_INVALID
        "wrong-secret-to-prior-utxo")
    else if tx.txUid = priorUtxoTx.utxo.to_uid
        ∧ context.height < timeout_height priorTxBlockHeight priorUtxoTx then
      .error (dosInside "CCoinUTXOTx::CheckTx, prior utxo not yet timedout!" .REJECT_INVALID
        "prior-utxo-not-timeout")
    else if priorUtxoTx.utxo.to_uid ≠ tx.txUid then
      .error (dosInside "CCoinUTXOTx::CheckTx, prior-utxo-toUid != txUid!" .REJECT_INVALID
        "priro-utxo-wrong-txUid")
    else if tx.utxo.is_null = false ∧ tx.utxo.coin_amount = 0 then
      .error (dosInside "CCoinUTXOTx::CheckTx, utxo.coin_amount is zero!" .REJECT_INVALID
        "zero-utxo-coin-amount")
    else if tx.utxo.is_null = false ∧ tx.utxo.coin_amount > priorUtxoTx.utxo.coin_amount then
      .error (dosInside "CCoinUTXOTx::CheckTx, prior utxo fund insufficient!" .REJECT_INVALID
        "prior-utxo-fund-insufficient")
    else .ok ()

/-- Line 105: the key the signature is verified against. -/
def signatureKey (tx : CCoinUTXOTx) (srcAccount : CAccount) : CPubKey :=
  match tx.txUid with
  | .pubKey k => k
  | .regId _ => srcAccount.owner_pubkey

/-- Lines 19-21: `txUid.is<CPubKey>() && !txUid.get<CPubKey>().IsFullyValid()`. -/
def badPublicKey (ext : External) (tx : CCoinUTXOTx) : Bool :=
  match tx.txUid with
  | .pubKey k => !ext.IsFullyValid k
  | .regId _ => false

/-- The function `CCoinUTXOTx::CheckTx` (lines 12-109). `.ok ()` is `return true`; an
error is a `return` of `false`, with what was handed to the validation state. -/
def CheckTx (ext : External) (tx : CCoinUTXOTx) (context : CTxExecuteContext) :
    Except Failure Unit :=
  if ext.stableCoinReleased context.height = false then
    .error (.external "IMPLEMENT_DISABLE_TX_PRE_STABLE_COIN_RELEASE")
  else if ext.checkMemo tx = false then .error (.external "IMPLEMENT_CHECK_TX_MEMO")
  else if ext.checkRegidOrPubkey tx.txUid = false then
    .error (.external "IMPLEMENT_CHECK_TX_REGID_OR_PUBKEY")
  else if ext.CheckFee tx context = false then .error (.external "CheckFee")
  else if badPublicKey ext tx = true then
    .error (dosWith "CCoinUTXOTx::CheckTx, public key is invalid" [] .REJECT_INVALID "bad-publickey")
  else
    match context.cw.accountCache.GetAccount tx.txUid with
    | none =>
      .error (dosWith "CCoinUTXOTx::CheckTx, read account failed" [] .REJECT_INVALID "bad-getaccount")
    | some srcAccount =>
      match (if tx.prior_utxo_txid = 0 then checkFirstTimeUtxo tx srcAccount
             else checkPriorUtxo ext tx context) with
      | .error e => .error e
      | .ok () =>
        if ext.checkSignature tx (signatureKey tx srcAccount) = false then
          .error (.external "IMPLEMENT_CHECK_TX_SIGNATURE")
        else .ok ()

/-! ## `CCoinUTXOTx::ExecuteTx` -/

/-- Lines 137-139: the receipts of a transaction. -/
def makeReceipts (tx : CCoinUTXOTx) : List CReceipt :=
  if tx.utxo.is_null = false then
    [{ from_uid := tx.txUid, to_uid := tx.utxo.to_uid, coin_symbol := tx.utxo.coin_symbol,
       coin_amount := tx.utxo.coin_amount, code := .TRANSFER_UTXO_COINS }]
  else []

/-- Lines 124-135: the debits applied to the loaded account: the fee, then, for a
first-time utxo, the locked amount. -/
def debitAccount (ext : External) (tx : CCoinUTXOTx) (srcAccount : CAccount) :
    Except Failure CAccount :=
  match srcAccount.OperateBalance tx.fee_symbol .SUB_FREE tx.llFees with
  | none =>
    .error (dosWith "CCoinUTXOTx::ExecuteTx, insufficient coin_amount in txUid %s account"
      [.text (ext.ToString tx.txUid)] .UPDATE_ACCOUNT_FAIL "insufficient-coin_amount")
  | some afterFee =>
    if tx.prior_utxo_txid = 0 then
      match afterFee.OperateBalance tx.utxo.coin_symbol .SUB_FREE tx.utxo.coin_amount with
      | none =>
        .error (dosWith "CCoinUTXOTx::ExecuteTx, failed to deduct coin_amount in txUid %s account"
          [.text (ext.ToString tx.txUid)] .UPDATE_ACCOUNT_FAIL "insufficient-fund-utxo")
      | some afterUtxo => .ok afterUtxo
    else .ok afterFee

/-- The function `CCoinUTXOTx::ExecuteTx` (lines 111-150): the returned boolean (as in
`CheckTx`) together with the stores as the call leaves them. -/
def ExecuteTx (ext : External) (tx : CCoinUTXOTx) (context : CTxExecuteContext) :
    Except Failure Unit × CCacheWrapper :=
  let cw := context.cw
  match cw.accountCache.GetAccount tx.txUid with
  | none =>
    (.error (dosWith "CCoinUTXOTx::ExecuteTx, read txUid %s account info error"
      [.text (ext.ToString tx.txUid)] .READ_ACCOUNT_FAIL "bad-read-accountdb"), cw)
  | some loaded =>
    match GenerateRegID ext tx context loaded with
    | none => (.error (.external "GenerateRegID"), cw)
    | some registered =>
      match debitAccount ext tx registered with
      | .error e => (.error e, cw)
      | .ok srcAccount =>
        let receipts := makeReceipts tx
        match cw.accountCache.SaveAccount ext srcAccount with
        | none =>
          (.error (dosWith "CCoinUTXOTx::ExecuteTx, write source addr %s account info error"
            [.text (ext.ToString tx.txUid)] .UPDATE_ACCOUNT_FAIL "bad-read-accountdb"), cw)
        | some accountCache =>
          let saved : CCacheWrapper := { cw with accountCache := accountCache }
          if receipts.isEmpty then (.ok (), saved)
          else
            match saved.txReceiptCache.SetTxReceipts ext (ext.GetHash tx) receipts with
            | none =>
              (.error (dosWith "CCDPStakeTx::ExecuteTx, set tx receipts failed!! txid=%s"
                [.text (toString (ext.GetHash tx))] .REJECT_INVALID "set-tx-receipt-failed"), saved)
            | some txReceiptCache => (.ok (), { saved with txReceiptCache := txReceiptCache })

/-! ## Predicates used by the statements -/

deriving instance DecidableEq for Except

/-- The generic checks of `CheckTx` all let the transaction through: the release gate,
the memo check, the uid form check, `CheckFee`, the public key validity test and the
signature check against the key taken from the transaction or from `srcAccount`. -/
def GenericChecksPass (ext : External) (tx : CCoinUTXOTx) (context : CTxExecuteContext)
    (srcAccount : CAccount) : Prop :=
  ext.stableCoinReleased context.height = true ∧ ext.checkMemo tx = true
    ∧ ext.checkRegidOrPubkey tx.txUid = true ∧ ext.CheckFee tx context = true
    ∧ badPublicKey ext tx = false
    ∧ ext.checkSignature tx (signatureKey tx srcAccount) = true

/-! ## Concrete ledgers and transactions (scenarios of the specification) -/

/-- Helpers under which every generic check passes and every write is carried out;
`CheckFee` is read as "fee payable": the sender holds the fee in `fee_symbol`. -/
def extOk : External where
  stableCoinReleased := fun _ => true
  checkMemo := fun _ => true
  checkRegidOrPubkey := fun _ => true
  CheckFee := fun tx context =>
    match context.cw.accountCache.GetAccount tx.txUid with
    | some a => decide (tx.llFees ≤ a.free_amount tx.fee_symbol)
    | none => false
  IsFullyValid := fun _ => true
  checkSignature := fun _ _ => true
  ToString := fun uid => match uid with
    | .regId n => "R" ++ toString n
    | .pubKey k => "P" ++ toString k
  GetHash := fun tx => tx.valid_height + 1
  newRegId := fun context => some context.height
  saveAccountOk := fun _ _ => true
  setTxReceiptsOk := fun _ _ _ => true

/-- The sender S of scenario 1. -/
def uidS : CUserID := .regId 1

/-- The beneficiary B of scenario 1. -/
def uidB : CUserID := .regId 2

/-- An account holding `n` WICC and nothing else. -/
def wiccAccount (uid : CUserID) (n : Nat) : CAccount where
  uid := uid
  regid := none
  owner_pubkey := 0
  free_amount := fun s => if s = "WICC" then n else 0

/-- A ledger whose account store holds S with `s` WICC and B with `b` WICC, and whose
UTXO-chain store is given. -/
def ledger (s b : Nat) (utxos : List (uint256 × Nat × CCoinUTXOTx)) : CCacheWrapper where
  accountCache := { accounts := [wiccAccount uidS s, wiccAccount uidB b] }
  txUtxoCache := { entries := utxos }
  txReceiptCache := { entries := [] }

/-- An output of `amount` WICC to `to_uid` with a time lock and no hash lock. -/
def wiccOutput (amount : Nat) (to_uid : CUserID) (lock_duration : Nat) : UTXOEntity where
  coin_symbol := "WICC"
  coin_amount := amount
  to_uid := to_uid
  lock_duration := lock_duration
  htlc_cond := { secret_hash := 0, collect_timeout := 0 }
  is_null := false

/-- A transaction by `txUid` paying `fee` WICC, with the given prior link and output. -/
def mkTx (txUid : CUserID) (fee : Nat) (prior_utxo_txid : uint256) (utxo : UTXOEntity) :
    CCoinUTXOTx where
  txUid := txUid
  valid_height := 0
  fee_symbol := "WICC"
  llFees := fee
  memo := ""
  signature := []
  prior_utxo_txid := prior_utxo_txid
  prior_utxo_secret := ""
  utxo := utxo

/-- Scenario 1: S locks 50 WICC to B for 10 blocks, paying a fee of 1. -/
def genesisTx : CCoinUTXOTx := mkTx uidS 1 0 (wiccOutput 50 uidB 10)

/-- The context of scenario 1 before the genesis link: S holds 100 WICC, height 1. -/
def genesisContext : CTxExecuteContext := { height := 1, index := 0, cw := ledger 100 0 [] }

/-- What `ExecuteTx` debits from the free balance of the sender in a symbol: the fee in
`fee_symbol`, and for a first-time utxo the locked amount in `utxo.coin_symbol`. -/
def debitOf (tx : CCoinUTXOTx) (symbol : TokenSymbol) : Nat :=
  (if symbol = tx.fee_symbol then tx.llFees else 0)
    + (if tx.prior_utxo_txid = 0 ∧ symbol = tx.utxo.coin_symbol then tx.utxo.coin_amount else 0)

/-- A genesis link that locks the whole balance of S: 100 WICC, with a fee of 1. -/
def overdrawnTx : CCoinUTXOTx := mkTx uidS 1 0 (wiccOutput 100 uidB 10)

/-- The output of a pure terminal spend: nothing is locked again. -/
def nullOutput : UTXOEntity := { wiccOutput 0 uidB 0 with is_null := true }

/-- A context at `height` whose ledger holds S with 49 WICC, B with 10 WICC, and the
link `prior` committed at height `priorHeight` under the transaction id 1. -/
def claimContext (height priorHeight : Nat) (prior : CCoinUTXOTx) : CTxExecuteContext :=
  { height := height, index := 0, cw := ledger 49 10 [(1, priorHeight, prior)] }

/-- A claim by `txUid` of the link with id 1, paying a fee of 1 WICC. -/
def claimTx (txUid : CUserID) (utxo : UTXOEntity) : CCoinUTXOTx := mkTx txUid 1 1 utxo

/-- The failure of the time-lock check (lines 59-62). -/
def lockedFailure : Failure :=
  dosInside "CCoinUTXOTx::CheckTx, prior utxo being locked!" .REJECT_INVALID "prior-utxo-locked-err"

/-- The failure of the hash-lock check (lines 69-72). -/
def wrongSecretFailure : Failure :=
  dosInside "CCoinUTXOTx::CheckTx, supplied wrong secret to prior utxo" .REJECT_INVALID
    "wrong-secret-to-prior-utxo"

/-- The failure of the timeout check (lines 81-84). -/
def notTimeoutFailure : Failure :=
  dosInside "CCoinUTXOTx::CheckTx, prior utxo not yet timedout!" .REJECT_INVALID
    "prior-utxo-not-timeout"

/-- The failure of the ownership check (lines 87-90). -/
def wrongTxUidFailure : Failure :=
  dosInside "CCoinUTXOTx::CheckTx, prior-utxo-toUid != txUid!" .REJECT_INVALID
    "priro-utxo-wrong-txUid"

/-- The failure of the fund check (lines 99-101). -/
def fundInsufficientFailure : Failure :=
  dosInside "CCoinUTXOTx::CheckTx, prior utxo fund insufficient!" .REJECT_INVALID
    "prior-utxo-fund-insufficient"

/-- The failure of the prior-link lookup (lines 48-51). -/
def loadPriorFailure : Failure :=
  dosInside "CCoinUTXOTx::CheckTx, load prior utxo error!" .REJECT_INVALID "load-prior-utxo-err"

/-- The failure of the null test on the prior output (lines 54-57). -/
def priorNullFailure : Failure :=
  dosInside "CCoinUTXOTx::CheckTx, prior utxo being null!" .REJECT_INVALID "prior-utxo-null-err"

/-- A link by S that locks 50 WICC to B with the largest lock duration a `uint64_t`
holds. -/
def foreverLockedTx : CCoinUTXOTx := mkTx uidS 1 0 (wiccOutput 50 uidB (2 ^ 64 - 1))

/-- A link by S that locks 50 WICC to B behind the hash lock `secret_hash`, with no
time lock. -/
def hashLockedTx (secret_hash : uint256) : CCoinUTXOTx :=
  mkTx uidS 1 0
    { wiccOutput 50 uidB 0 with htlc_cond := { secret_hash := secret_hash, collect_timeout := 0 } }

/-- The claim by B of the link with id 1 that reveals `secret` and locks nothing. -/
def secretClaimTx (secret : String) : CCoinUTXOTx :=
  { claimTx uidB nullOutput with prior_utxo_secret := secret }

/-- A link by S that locks 50 WICC to B for 10 blocks with the largest collect timeout
a `uint64_t` holds. -/
def longTimeoutTx : CCoinUTXOTx :=
  mkTx uidS 1 0
    { wiccOutput 50 uidB 10 with htlc_cond := { secret_hash := 0, collect_timeout := 2 ^ 64 - 1 } }

/-- The transaction `tx` with the symbol of its output replaced. -/
def withSymbol (tx : CCoinUTXOTx) (symbol : TokenSymbol) : CCoinUTXOTx :=
  { tx with utxo := { tx.utxo with coin_symbol := symbol } }

/-- The checks of the continuation branch that precede the ownership check all pass:
the prior output is not null, the (64-bit) lock height is reached and the prior
output carries no hash lock. -/
def PriorChecksPass (context : CTxExecuteContext) (priorTxBlockHeight : Nat)
    (priorUtxoTx : CCoinUTXOTx) : Prop :=
  priorUtxoTx.utxo.is_null = false
    ∧ (priorTxBlockHeight + priorUtxoTx.utxo.lock_duration) % UINT64_MOD ≤ context.height
    ∧ priorUtxoTx.utxo.htlc_cond.secret_hash = 0

/-- The failure of the receipt write (lines 145-147). -/
def setReceiptsFailure (ext : External) (tx : CCoinUTXOTx) : Failure :=
  dosWith "CCDPStakeTx::ExecuteTx, set tx receipts failed!! txid=%s"
    [.text (toString (ext.GetHash tx))] .REJECT_INVALID "set-tx-receipt-failed"

/-- The helpers of `extOk`, except that the receipt store refuses every write. -/
def extReceiptsFail : External := { extOk with setTxReceiptsOk := fun _ _ _ => false }

/-- A link by S that locks 50 WICC to B for 10 blocks, with a collect timeout of 20 and
no hash lock. -/
def timeoutLinkTx : CCoinUTXOTx :=
  mkTx uidS 1 0
    { wiccOutput 50 uidB 10 with htlc_cond := { secret_hash := 0, collect_timeout := 20 } }

/-! ## `CheckTx` in state-passing form -/

/-- The failure of the amount test (lines 34-36 and 94-96). -/
def zeroAmountFailure : Failure :=
  dosInside "CCoinUTXOTx::CheckTx, utxo.coin_amount is zero!" .REJECT_INVALID
    "zero-utxo-coin-amount"

/-- The calls of `CheckTx` that are defined outside the excerpt, in state-passing form.
Every call that receives the stores in the source (through the mutable `context`, or
through `cw`, which the checks expanded inside the function body can reach) gives
its result together with the stores as the call leaves them; nothing is assumed here
about what such a call does to the stores. `IsFullyValid` and `ToString` are called on
a key and on an identity and receive no stores. -/
structure ExternalSt where
  /-- The gate `IMPLEMENT_DISABLE_TX_PRE_STABLE_COIN_RELEASE`. -/
  stableCoinReleased : CTxExecuteContext → Bool × CCacheWrapper
  /-- The check `IMPLEMENT_CHECK_TX_MEMO`. -/
  checkMemo : CCoinUTXOTx → CTxExecuteContext → Bool × CCacheWrapper
  /-- The check `IMPLEMENT_CHECK_TX_REGID_OR_PUBKEY(txUid)`. -/
  checkRegidOrPubkey : CUserID → CTxExecuteContext → Bool × CCacheWrapper
  /-- The call `CheckFee(context)`. -/
  CheckFee : CCoinUTXOTx → CTxExecuteContext → Bool × CCacheWrapper
  /-- The call `CPubKey::IsFullyValid()`. -/
  IsFullyValid : CPubKey → Bool
  /-- The call `cw.accountCache.GetAccount(txUid, srcAccount)`. -/
  GetAccount : CCacheWrapper → CUserID → Option CAccount × CCacheWrapper
  /-- The call `context.pCw->txUtxoCache.GetUtxoTx(...)`. -/
  GetUtxoTx : CCacheWrapper → uint256 → Option (Nat × CCoinUTXOTx) × CCacheWrapper
  /-- The check `IMPLEMENT_CHECK_TX_SIGNATURE(pubKey)`. -/
  checkSignature : CCoinUTXOTx → CPubKey → CTxExecuteContext → Bool × CCacheWrapper
  /-- The call `CUserID::ToString()`. -/
  ToString : CUserID → String

/-- The context a later call of `CheckTx` receives: the same height and index, with the
stores as the earlier calls left them. -/
def withStores (context : CTxExecuteContext) (cw : CCacheWrapper) : CTxExecuteContext :=
  { context with cw := cw }

/-- Lines 63-73 (the hash-lock test), with `ToString` taken from `ExternalSt`. -/
def wrongSecretSt (es : ExternalSt) (tx priorUtxoTx : CCoinUTXOTx) : Bool :=
  let _text : String :=
    es.ToString priorUtxoTx.txUid ++ tx.prior_utxo_secret ++ toString priorUtxoTx.valid_height
  let hash : uint256 := 0
  decide (hash ≠ priorUtxoTx.utxo.htlc_cond.secret_hash)

/-- Lines 19-21, with `IsFullyValid` taken from `ExternalSt`. -/
def badPublicKeySt (es : ExternalSt) (tx : CCoinUTXOTx) : Bool :=
  match tx.txUid with
  | .pubKey k => !es.IsFullyValid k
  | .regId _ => false

/-- Lines 44-103 with the stores threaded through the lookup of the prior link: the
verdict of the branch and the stores after it. -/
def checkPriorUtxoSt (es : ExternalSt) (tx : CCoinUTXOTx) (height : Nat) (cw : CCacheWrapper) :
    Except Failure Unit × CCacheWrapper :=
  let found := es.GetUtxoTx cw tx.prior_utxo_txid
  match found.1 with
  | none => (.error loadPriorFailure, found.2)
  | some (priorTxBlockHeight, priorUtxoTx) =>
    if priorUtxoTx.utxo.is_null then (.error priorNullFailure, found.2)
    else if height < (priorTxBlockHeight + priorUtxoTx.utxo.lock_duration) % UINT64_MOD then
      (.error lockedFailure, found.2)
    else if priorUtxoTx.utxo.htlc_cond.secret_hash ≠ 0
        ∧ wrongSecretSt es tx priorUtxoTx = true then
      (.error wrongSecretFailure, found.2)
    else if tx.txUid = priorUtxoTx.utxo.to_uid
        ∧ height < timeout_height priorTxBlockHeight priorUtxoTx then
      (.error notTimeoutFailure, found.2)
    else if priorUtxoTx.utxo.to_uid ≠ tx.txUid then (.error wrongTxUidFailure, found.2)
    else if tx.utxo.is_null = false ∧ tx.utxo.coin_amount = 0 then
      (.error zeroAmountFailure, found.2)
    else if tx.utxo.is_null = false ∧ tx.utxo.coin_amount > priorUtxoTx.utxo.coin_amount then
      (.error fundInsufficientFailure, found.2)
    else (.ok (), found.2)

/-- The function `CCoinUTXOTx::CheckTx` (lines 12-109) with the stores behind
`context.pCw` threaded through every call that receives them, in the order of the
source: the returned boolean and the stores as the function leaves them. -/
def CheckTxSt (es : ExternalSt) (tx : CCoinUTXOTx) (context : CTxExecuteContext) :
    Except Failure Unit × CCacheWrapper :=
  let gate := es.stableCoinReleased context
  if gate.1 = false then
    (.error (.external "IMPLEMENT_DISABLE_TX_PRE_STABLE_COIN_RELEASE"), gate.2)
  else
    let memo := es.checkMemo tx (withStores context gate.2)
    if memo.1 = false then (.error (.external "IMPLEMENT_CHECK_TX_MEMO"), memo.2)
    else
      let form := es.checkRegidOrPubkey tx.txUid (withStores context memo.2)
      if form.1 = false then (.error (.external "IMPLEMENT_CHECK_TX_REGID_OR_PUBKEY"), form.2)
      else
        let fee := es.CheckFee tx (withStores context form.2)
        if fee.1 = false then (.error (.external "CheckFee"), fee.2)
        else if badPublicKeySt es tx = true then
          (.error (dosWith "CCoinUTXOTx::CheckTx, public key is invalid" [] .REJECT_INVALID
            "bad-publickey"), fee.2)
        else
          let loaded := es.GetAccount fee.2 tx.txUid
          match loaded.1 with
          | none =>
            (.error (dosWith "CCoinUTXOTx::CheckTx, read account failed" [] .REJECT_INVALID
              "bad-getaccount"), loaded.2)
          | some srcAccount =>
            let branch :=
              if tx.prior_utxo_txid = 0 then (checkFirstTimeUtxo tx srcAccount, loaded.2)
              else checkPriorUtxoSt es tx context.height loaded.2
            match branch.1 with
            | .error e => (.error e, branch.2)
            | .ok () =>
              let sig :=
                es.checkSignature tx (signatureKey tx srcAccount) (withStores context branch.2)
              if sig.1 = false then (.error (.external "IMPLEMENT_CHECK_TX_SIGNATURE"), sig.2)
              else (.ok (), sig.2)

/-- The helpers outside the excerpt leave the stores as they find them: the hypothesis
under which the frame property of `CheckTx` is stated. Modelled from the spec: the
ledger accessors offer "keyed lookups only" and validation is "pure with respect to
ledger reads". -/
def ReadOnly (es : ExternalSt) : Prop :=
  (∀ c, (es.stableCoinReleased c).2 = c.cw)
    ∧ (∀ tx c, (es.checkMemo tx c).2 = c.cw)
    ∧ (∀ uid c, (es.checkRegidOrPubkey uid c).2 = c.cw)
    ∧ (∀ tx c, (es.CheckFee tx c).2 = c.cw)
    ∧ (∀ cw uid, (es.GetAccount cw uid).2 = cw)
    ∧ (∀ cw txid, (es.GetUtxoTx cw txid).2 = cw)
    ∧ (∀ tx k c, (es.checkSignature tx k c).2 = c.cw)

/-- The helpers outside the excerpt that receive the whole context read its height and
its stores only: their results agree on two contexts with the same height and the
same stores. -/
def ReadsHeightAndStores (es : ExternalSt) : Prop :=
  ∀ c1 c2 : CTxExecuteContext, c1.height = c2.height → c1.cw = c2.cw →
    (es.stableCoinReleased c1).1 = (es.stableCoinReleased c2).1
      ∧ (∀ tx, (es.checkMemo tx c1).1 = (es.checkMemo tx c2).1)
      ∧ (∀ uid, (es.checkRegidOrPubkey uid c1).1 = (es.checkRegidOrPubkey uid c2).1)
      ∧ (∀ tx, (es.CheckFee tx c1).1 = (es.CheckFee tx c2).1)
      ∧ (∀ tx k, (es.checkSignature tx k c1).1 = (es.checkSignature tx k c2).1)

/-- The helpers of `External` as calls that only read: each returns the verdict `External`
gives and the stores it received, and the two lookups are those of the stores. -/
def External.readOnly (ext : External) : ExternalSt where
  stableCoinReleased := fun c => (ext.stableCoinReleased c.height, c.cw)
  checkMemo := fun tx c => (ext.checkMemo tx, c.cw)
  checkRegidOrPubkey := fun uid c => (ext.checkRegidOrPubkey uid, c.cw)
  CheckFee := fun tx c => (ext.CheckFee tx c, c.cw)
  IsFullyValid := ext.IsFullyValid
  GetAccount := fun cw uid => (cw.accountCache.GetAccount uid, cw)
  GetUtxoTx := fun cw txid => (cw.txUtxoCache.GetUtxoTx txid, cw)
  checkSignature := fun tx k c => (ext.checkSignature tx k, c.cw)
  ToString := ext.ToString

/-- Helpers that write: `CheckFee` empties the receipt store; the other calls are those
of `extOk.readOnly`. It shows that `ExternalSt` does not force the stores to be
kept. -/
def extFeeWrites : ExternalSt :=
  { extOk.readOnly with
    CheckFee := fun tx c =>
      (extOk.CheckFee tx c, { c.cw with txReceiptCache := { entries := [] } }) }

/-! ## Inverse execution -/

/-- Modelled from the spec: the credit that reverses a debit of the free balance
(`adjust_balance` with the opposite delta; no credit is part of the excerpt). -/
def CAccount.creditFree (a : CAccount) (symbol : TokenSymbol) (value : Nat) : CAccount :=
  { a with free_amount := Function.update a.free_amount symbol (a.free_amount symbol + value) }

/-- Modelled from the spec: the balance part of Inverse Execution (section 4.3): it
"reverses the balance debits exactly (credit back fee and, if genesis, the locked
amount)". -/
def undoAccount (tx : CCoinUTXOTx) (account : CAccount) : CAccount :=
  let afterFee := account.creditFree tx.fee_symbol tx.llFees
  if tx.prior_utxo_txid = 0 then afterFee.creditFree tx.utxo.coin_symbol tx.utxo.coin_amount
  else afterFee

/-- Modelled from the spec: the `StateDelta` that `execute` yields and `undo` is given
(sections 2 and 4.3: "Given the recorded StateDelta for a transaction being rolled
back"; the excerpt records none): which stores the execution wrote to under the id of
the transaction, the receipt set of step 6 and the chain-head index of step 7. The
balance debits are those of the transaction (fee and, if genesis, locked amount). -/
structure StateDelta where
  receiptsWritten : Bool
  headIndexed : Bool
deriving DecidableEq, Repr

/-- Modelled from the spec: the state delta recorded for a run of `ExecuteTx` on a
ledger: receipts were written when the receipt list of the transaction is not empty
(lines 137-147), and the transaction was indexed as a chain head when the UTXO-chain
store resolves its id after the run and did not before it. -/
def recordDelta (ext : External) (tx : CCoinUTXOTx) (context : CTxExecuteContext) : StateDelta where
  receiptsWritten := !(makeReceipts tx).isEmpty
  headIndexed :=
    (context.cw.txUtxoCache.GetUtxoTx (ext.GetHash tx)).isNone
      && ((ExecuteTx ext tx context).2.txUtxoCache.GetUtxoTx (ext.GetHash tx)).isSome

/-- Modelled from the spec: Inverse Execution (section 4.3; the excerpt holds no undo
function for this transaction): given the recorded state delta, it "reverses the
balance debits exactly (credit back fee and, if genesis, the locked amount), removes
the receipt record, and removes the transaction from the chain-head index": the
receipt record and the index entry are removed when the delta records that the
execution wrote them. `none` when the sender account is not in the account store. -/
def UndoExecuteTx (ext : External) (tx : CCoinUTXOTx) (cw : CCacheWrapper) (delta : StateDelta) :
    Option CCacheWrapper :=
  match cw.accountCache.GetAccount tx.txUid with
  | none => none
  | some account =>
    let restored := undoAccount tx account
    some
      { accountCache :=
          { accounts :=
              restored :: cw.accountCache.accounts.filter (fun b => !decide (b.uid = restored.uid)) }
        txUtxoCache :=
          if delta.headIndexed then
            { entries := cw.txUtxoCache.entries.filter (fun e => !decide (e.1 = ext.GetHash tx)) }
          else cw.txUtxoCache
        txReceiptCache :=
          if delta.receiptsWritten then
            { entries :=
                cw.txReceiptCache.entries.filter (fun e => !decide (e.1 = ext.GetHash tx)) }
          else cw.txReceiptCache }

/-- A context at height 2 whose ledger holds S with 100 WICC and already resolves the id
of the genesis link of scenario 1 (committed at height 1): the link is replayed. -/
def replayContext : CTxExecuteContext :=
  { height := 2, index := 0, cw := ledger 100 0 [(extOk.GetHash genesisTx, 1, genesisTx)] }

/-! ## The bounded message queue (`src/messagequeue.h`) -/

/-- The constant `MSG_QUEUE_MAX_LEN` (line 10). -/
def MSG_QUEUE_MAX_LEN : Nat := 10000

/-- The state of a `MsgQueue<T>`: the items of `mq`, front first. Every member function
holds the mutex while it touches `mq`, so a completed call acts on the queue in one
step, the one that follows its wait, if any. -/
structure MsgQueue (T : Type) where
  mq : List T
deriving DecidableEq, Repr

/-- The function `MsgQueue::Len` (lines 90-94). -/
def MsgQueue.Len {T : Type} (q : MsgQueue T) : Nat := q.mq.length

/-- The function `MsgQueue::Empty` (lines 78-82). -/
def MsgQueue.Empty {T : Type} (q : MsgQueue T) : Bool := q.mq.isEmpty

/-- The function `MsgQueue::Full` (lines 84-88). -/
def MsgQueue.Full {T : Type} (q : MsgQueue T) : Bool := decide (q.mq.length = MSG_QUEUE_MAX_LEN)

/-- The function `MsgQueue::Push` (lines 60-76). The loop
`while (mq.size() == MSG_QUEUE_MAX_LEN) pushCond.wait(lock)` holds the call back while
the queue is full: `none` is a call that is still waiting on the queue `q`, `some` is
the queue after a call that completes on `q`. -/
def MsgQueue.Push {T : Type} (q : MsgQueue T) (t : T) : Option (MsgQueue T) :=
  if q.mq.length = MSG_QUEUE_MAX_LEN then none else some { mq := q.mq ++ [t] }

/-- The function `MsgQueue::Pop` (lines 35-58), from the test `!mq.empty()` that follows
the wait: `q` is the queue at that moment. The target `t` is `none` for a null
pointer and `some v` for a pointer to a cell that holds `v`. The result is the
returned boolean, the target after the call and the queue after the call. -/
def MsgQueue.Pop {T : Type} (q : MsgQueue T) (t : Option T) : Bool × Option T × MsgQueue T :=
  match q.mq with
  | [] => (false, t, q)
  | front :: rest => (true, t.map (fun _ => front), { mq := rest })

/-- A call on the queue: a push of an item or a pop with a target. -/
inductive MsgOp (T : Type) where
  | push (t : T)
  | pop (target : Option T)

/-- The queue after a sequence of completed calls, or `none` when one of the pushes
cannot complete at its place in the sequence. -/
def MsgQueue.run {T : Type} : MsgQueue T → List (MsgOp T) → Option (MsgQueue T)
  | q, [] => some q
  | q, .push t :: ops =>
    match q.Push t with
    | none => none
    | some q1 => MsgQueue.run q1 ops
  | q, .pop target :: ops => MsgQueue.run (q.Pop target).2.2 ops

/-- The items pushed one after the other. -/
def MsgQueue.pushAll {T : Type} : MsgQueue T → List T → Option (MsgQueue T)
  | q, [] => some q
  | q, t :: ts =>
    match q.Push t with
    | none => none
    | some q1 => MsgQueue.pushAll q1 ts

/-- The results of `n` successive pops, each with a target cell that holds `cell`
before the call: the returned boolean and the target after each call, and the queue
after the last one. -/
def MsgQueue.popN {T : Type} (cell : T) : MsgQueue T → Nat → List (Bool × Option T) × MsgQueue T
  | q, 0 => ([], q)
  | q, n + 1 =>
    let r := q.Pop (some cell)
    let rest := MsgQueue.popN cell r.2.2 n
    ((r.1, r.2.1) :: rest.1, rest.2)

/-! ## The reward transaction (`src/tx/coinrewardtx.h`) -/

/-- The tag of a coin (`CoinType`, declared outside the excerpt), kept in a `uint8_t`. -/
abbrev CoinType := Nat

/-- The members of `CCoinRewardTx` (lines 13-15) and the `txUid` of the base class. -/
structure CCoinRewardTx where
  txUid : CUserID
  coinType : CoinType
  coins : Nat
  height : Int
deriving DecidableEq, Repr

/-- The constructor of lines 25-30. Its body assigns `txUid`, `coins` and `height`; the
argument `coinTypeIn` is not used, and `coinType` has neither an initialiser in the
constructor nor a default one, so the member keeps whatever its storage holds, given
here as `storage`. -/
def CCoinRewardTx.construct (storage : CoinType) (txUidIn : CUserID) (_coinTypeIn : CoinType)
    (coinsIn : Nat) (nHeightIn : Int) : CCoinRewardTx :=
  { txUid := txUidIn, coinType := storage, coins := coinsIn, height := nHeightIn }

/-- The function `GetValues` (line 54): the one-entry map from `coinType` to `coins`. -/
def CCoinRewardTx.GetValues (tx : CCoinRewardTx) : List (CoinType × Nat) := [(tx.coinType, tx.coins)]

/-- The function `GetFee` (line 56). -/
def CCoinRewardTx.GetFee (_tx : CCoinRewardTx) : Nat := 0

/-! ## Facts about `CheckTx` shared by the claims -/

theorem checkTx_eq_branch (ext : External) (tx : CCoinUTXOTx) (context : CTxExecuteContext)
    (srcAccount : CAccount)
    (hacc : context.cw.accountCache.GetAccount tx.txUid = some srcAccount)
    (hpass : GenericChecksPass ext tx context srcAccount) :
    CheckTx ext tx context =
      if tx.prior_utxo_txid = 0 then checkFirstTimeUtxo tx srcAccount
      else checkPriorUtxo ext tx context := by
  obtain ⟨h1, h2, h3, h4, h5, h6⟩ := hpass
  unfold CheckTx
  simp only [h1, h2, h3, h4, h5, h6, hacc]
  simp only [Bool.true_eq_false, Bool.false_eq_true, if_false]
  split <;> rename_i hb
  · rw [hb]
  · rw [hb]

theorem accepts_inv (ext : External) (tx : CCoinUTXOTx) (context : CTxExecuteContext)
    (h : CheckTx ext tx context = .ok ()) :
    ∃ srcAccount, context.cw.accountCache.GetAccount tx.txUid = some srcAccount
      ∧ GenericChecksPass ext tx context srcAccount
      ∧ (if tx.prior_utxo_txid = 0 then checkFirstTimeUtxo tx srcAccount
         else checkPriorUtxo ext tx context) = .ok () := by
  unfold CheckTx at h
  split at h; · exact absurd h (by simp)
  split at h; · exact absurd h (by simp)
  split at h; · exact absurd h (by simp)
  split at h; · exact absurd h (by simp)
  split at h; · exact absurd h (by simp)
  split at h; · exact absurd h (by simp)
  rename_i h1 h2 h3 h4 h5 _ srcAccount hacc
  split at h; · exact absurd h (by simp)
  rename_i hb
  split at h; · exact absurd h (by simp)
  rename_i h6
  refine ⟨srcAccount, hacc, ⟨?_, ?_, ?_, ?_, ?_, ?_⟩, hb⟩
  · simpa using h1
  · simpa using h2
  · simpa using h3
  · simpa using h4
  · simpa using h5
  · simpa using h6

/-! ## Facts about the account and `ExecuteTx` shared by the claims -/

theorem getAccount_uid (db : CAccountDBCache) (uid : CUserID) (a : CAccount)
    (h : db.GetAccount uid = some a) : a.uid = uid := by
  unfold CAccountDBCache.GetAccount at h
  have := List.find?_some h
  simpa using this

theorem generateRegID_some (ext : External) (tx : CCoinUTXOTx) (context : CTxExecuteContext)
    (a r : CAccount) (h : GenerateRegID ext tx context a = some r) :
    r.uid = a.uid ∧ r.free_amount = a.free_amount := by
  unfold GenerateRegID at h
  split at h
  · split at h
    · cases h; exact ⟨rfl, rfl⟩
    · cases h
  · cases h; exact ⟨rfl, rfl⟩

theorem operateBalance_some (a b : CAccount) (symbol : TokenSymbol) (value : Nat)
    (h : a.OperateBalance symbol .SUB_FREE value = some b) :
    value ≤ a.free_amount symbol ∧ b.uid = a.uid
      ∧ b.free_amount = Function.update a.free_amount symbol (a.free_amount symbol - value) := by
  simp only [CAccount.OperateBalance] at h
  split_ifs at h with hlt
  cases h
  exact ⟨by omega, rfl, rfl⟩

theorem operateBalance_of_le (a : CAccount) (symbol : TokenSymbol) (value : Nat)
    (h : value ≤ a.free_amount symbol) :
    ∃ b, a.OperateBalance symbol .SUB_FREE value = some b := by
  simp only [CAccount.OperateBalance]
  rw [if_neg (by omega)]
  exact ⟨_, rfl⟩

theorem debitAccount_ok (ext : External) (tx : CCoinUTXOTx) (a b : CAccount)
    (h : debitAccount ext tx a = .ok b) :
    b.uid = a.uid ∧ ∀ symbol, b.free_amount symbol + debitOf tx symbol = a.free_amount symbol := by
  unfold debitAccount at h
  split at h
  · cases h
  · rename_i afterFee hfee
    obtain ⟨hle, huid, hfree⟩ := operateBalance_some _ _ _ _ hfee
    split at h
    · rename_i hgen
      split at h
      · cases h
      · rename_i afterUtxo hutxo
        obtain ⟨hle2, huid2, hfree2⟩ := operateBalance_some _ _ _ _ hutxo
        cases h
        refine ⟨by rw [huid2, huid], fun symbol => ?_⟩
        rw [hfree] at hle2
        rw [hfree2, hfree]
        unfold debitOf
        by_cases h1 : symbol = tx.fee_symbol <;> by_cases h2 : symbol = tx.utxo.coin_symbol
        · subst h1; rw [← h2] at hle2 ⊢
          simp only [Function.update_same] at hle2 ⊢
          simp [hgen]; omega
        · subst h1
          have h3 : tx.fee_symbol ≠ tx.utxo.coin_symbol := h2
          simp [hgen, h2, Function.update_noteq h3]; omega
        · subst h2
          have h3 : tx.utxo.coin_symbol ≠ tx.fee_symbol := h1
          rw [Function.update_noteq h3] at hle2
          simp [hgen, h1, Function.update_noteq h3]; omega
        · simp [hgen, h1, h2, Function.update_noteq h1, Function.update_noteq h2]
    · rename_i hgen
      cases h
      refine ⟨huid, fun symbol => ?_⟩
      rw [hfree]
      unfold debitOf
      by_cases h1 : symbol = tx.fee_symbol
      · subst h1; simp [hgen]; omega
      · simp [hgen, h1, Function.update_noteq h1]

theorem getAccount_saveAccount (ext : External) (db db1 : CAccountDBCache) (a : CAccount)
    (h : db.SaveAccount ext a = some db1) : db1.GetAccount a.uid = some a := by
  unfold CAccountDBCache.SaveAccount at h
  split_ifs at h
  cases h
  simp [CAccountDBCache.GetAccount]

theorem executeTx_ok_debits (ext : External) (tx : CCoinUTXOTx) (context : CTxExecuteContext)
    (srcAccount : CAccount)
    (hacc : context.cw.accountCache.GetAccount tx.txUid = some srcAccount)
    (hok : (ExecuteTx ext tx context).1 = .ok ()) :
    ∃ after, (ExecuteTx ext tx context).2.accountCache.GetAccount tx.txUid = some after
      ∧ ∀ symbol, after.free_amount symbol + debitOf tx symbol = srcAccount.free_amount symbol := by
  have huid := getAccount_uid _ _ _ hacc
  unfold ExecuteTx at hok ⊢
  simp only [hacc] at hok ⊢
  cases hreg : GenerateRegID ext tx context srcAccount with
  | none => simp [hreg] at hok
  | some registered =>
    obtain ⟨hruid, hrfree⟩ := generateRegID_some _ _ _ _ _ hreg
    simp only [hreg] at hok ⊢
    cases hdeb : debitAccount ext tx registered with
    | error e => simp [hdeb] at hok
    | ok final =>
      obtain ⟨hfuid, hffree⟩ := debitAccount_ok _ _ _ _ hdeb
      simp only [hdeb] at hok ⊢
      cases hsave : context.cw.accountCache.SaveAccount ext final with
      | none => simp [hsave] at hok
      | some db1 =>
        have hget := getAccount_saveAccount _ _ _ _ hsave
        rw [hfuid, hruid, huid] at hget
        simp only [hsave] at hok ⊢
        refine ⟨final, ?_, fun symbol => by rw [hffree symbol, hrfree]⟩
        split
        · exact hget
        · split
          · simp_all
          · exact hget

theorem checkFirstTimeUtxo_ok (tx : CCoinUTXOTx) (srcAccount : CAccount)
    (h : checkFirstTimeUtxo tx srcAccount = .ok ()) :
    tx.utxo.is_null = false ∧ 0 < tx.utxo.coin_amount
      ∧ tx.utxo.coin_amount ≤ srcAccount.free_amount tx.utxo.coin_symbol := by
  unfold checkFirstTimeUtxo at h
  split_ifs at h with h1 h2 h3
  refine ⟨by simpa using h1, by omega, ?_⟩
  simp only [CAccount.GetBalance] at h3
  omega

theorem wrongSecret_of_ne_zero (ext : External) (tx prior : CCoinUTXOTx)
    (h : prior.utxo.htlc_cond.secret_hash ≠ 0) : wrongSecret ext tx prior = true := by
  unfold wrongSecret
  simp only [decide_eq_true_eq]
  exact fun h0 => h h0.symm

theorem checkPriorUtxo_ok_iff (ext : External) (tx : CCoinUTXOTx) (context : CTxExecuteContext)
    (priorTxBlockHeight : Nat) (priorUtxoTx : CCoinUTXOTx)
    (hres : context.cw.txUtxoCache.GetUtxoTx tx.prior_utxo_txid
      = some (priorTxBlockHeight, priorUtxoTx)) :
    checkPriorUtxo ext tx context = .ok () ↔
      (priorUtxoTx.utxo.is_null = false
        ∧ (priorTxBlockHeight + priorUtxoTx.utxo.lock_duration) % UINT64_MOD ≤ context.height
        ∧ priorUtxoTx.utxo.htlc_cond.secret_hash = 0
        ∧ tx.txUid = priorUtxoTx.utxo.to_uid
        ∧ timeout_height priorTxBlockHeight priorUtxoTx ≤ context.height
        ∧ (tx.utxo.is_null = false →
            0 < tx.utxo.coin_amount ∧ tx.utxo.coin_amount ≤ priorUtxoTx.utxo.coin_amount)) := by
  unfold checkPriorUtxo
  simp only [hres]
  by_cases h1 : priorUtxoTx.utxo.is_null = true
  · simp [h1]
  by_cases h2 : context.height
      < (priorTxBlockHeight + priorUtxoTx.utxo.lock_duration) % UINT64_MOD
  · simp [h1, h2]
  by_cases h3 : priorUtxoTx.utxo.htlc_cond.secret_hash = 0
  swap
  · simp [h1, h2, h3, wrongSecret_of_ne_zero ext tx priorUtxoTx h3]
  by_cases h4 : tx.txUid = priorUtxoTx.utxo.to_uid
  swap
  · have h4b : priorUtxoTx.utxo.to_uid ≠ tx.txUid := fun h => h4 h.symm
    simp [h1, h2, h3, h4, h4b]
  by_cases h5 : context.height < timeout_height priorTxBlockHeight priorUtxoTx
  · simp [h1, h2, h3, h4, h5]
  by_cases h6 : tx.utxo.is_null = false
  swap
  · simp [h1, h2, h3, h4, h5, h6]
    omega
  by_cases h7 : tx.utxo.coin_amount = 0
  · simp [h1, h2, h3, h4, h5, h6, h7]
  by_cases h8 : tx.utxo.coin_amount > priorUtxoTx.utxo.coin_amount
  · simp [h1, h2, h3, h4, h5, h6, h7, h8]
  · simp [h1, h2, h3, h4, h5, h6, h7, h8]
    omega

theorem checkTx_continuation (ext : External) (tx : CCoinUTXOTx) (context : CTxExecuteContext)
    (srcAccount : CAccount)
    (hcont : tx.prior_utxo_txid ≠ 0)
    (hacc : context.cw.accountCache.GetAccount tx.txUid = some srcAccount)
    (hpass : GenericChecksPass ext tx context srcAccount) :
    CheckTx ext tx context = checkPriorUtxo ext tx context := by
  rw [checkTx_eq_branch ext tx context srcAccount hacc hpass, if_neg hcont]

theorem continuation_accepted (ext : External) (tx : CCoinUTXOTx) (context : CTxExecuteContext)
    (hcont : tx.prior_utxo_txid ≠ 0) (h : CheckTx ext tx context = .ok ()) :
    checkPriorUtxo ext tx context = .ok () := by
  obtain ⟨_, _, _, hbranch⟩ := accepts_inv ext tx context h
  rwa [if_neg hcont] at hbranch

/-- What the time-lock check does when the sum does not leave the 64-bit range: a
continuation transaction whose prior link resolves is not accepted at a height
below `priorTxBlockHeight + lock_duration`, and when the earlier checks pass the
rejection is the one of lines 59-62. -/
theorem locked_rejected_of_no_overflow (ext : External) (tx : CCoinUTXOTx)
    (context : CTxExecuteContext) (priorTxBlockHeight : Nat) (priorUtxoTx : CCoinUTXOTx)
    (hcont : tx.prior_utxo_txid ≠ 0)
    (hres : context.cw.txUtxoCache.GetUtxoTx tx.prior_utxo_txid
      = some (priorTxBlockHeight, priorUtxoTx))
    (hrange : priorTxBlockHeight + priorUtxoTx.utxo.lock_duration < UINT64_MOD)
    (hlocked : context.height < priorTxBlockHeight + priorUtxoTx.utxo.lock_duration) :
    CheckTx ext tx context ≠ .ok ()
      ∧ ∀ srcAccount, context.cw.accountCache.GetAccount tx.txUid = some srcAccount →
          GenericChecksPass ext tx context srcAccount → priorUtxoTx.utxo.is_null = false →
          CheckTx ext tx context = .error lockedFailure := by
  have hmod : (priorTxBlockHeight + priorUtxoTx.utxo.lock_duration) % UINT64_MOD
      = priorTxBlockHeight + priorUtxoTx.utxo.lock_duration := Nat.mod_eq_of_lt hrange
  constructor
  · intro h
    have h2 := (checkPriorUtxo_ok_iff ext tx context _ _ hres).mp
      (continuation_accepted ext tx context hcont h)
    omega
  · intro srcAccount hacc hpass hnull
    rw [checkTx_continuation ext tx context srcAccount hcont hacc hpass]
    unfold checkPriorUtxo
    simp only [hres]
    rw [if_neg (by simp [hnull]), if_pos (by omega)]
    rfl

theorem checkPriorUtxo_wrong_txUid (ext : External) (tx : CCoinUTXOTx)
    (context : CTxExecuteContext) (priorTxBlockHeight : Nat) (priorUtxoTx : CCoinUTXOTx)
    (hres : context.cw.txUtxoCache.GetUtxoTx tx.prior_utxo_txid
      = some (priorTxBlockHeight, priorUtxoTx))
    (hprior : PriorChecksPass context priorTxBlockHeight priorUtxoTx)
    (hne : tx.txUid ≠ priorUtxoTx.utxo.to_uid) :
    checkPriorUtxo ext tx context = .error wrongTxUidFailure := by
  obtain ⟨h1, h2, h3⟩ := hprior
  unfold checkPriorUtxo
  simp only [hres]
  rw [if_neg (by simp [h1]), if_neg (by omega), if_neg (fun h => h.1 h3),
    if_neg (fun h => hne h.1), if_pos (fun h => hne h.symm)]
  rfl

theorem find_filter_of_imp {α : Type} (p q : α → Bool) (l : List α)
    (h : ∀ x, p x = true → q x = true) : (l.filter q).find? p = l.find? p := by
  induction l with
  | nil => rfl
  | cons x xs ih =>
    by_cases hq : q x = true
    · rw [List.filter_cons_of_pos hq]
      by_cases hp : p x = true
      · rw [List.find?_cons_of_pos _ hp, List.find?_cons_of_pos _ hp]
      · rw [List.find?_cons_of_neg _ hp, List.find?_cons_of_neg _ hp, ih]
    · rw [List.filter_cons_of_neg hq]
      have hp : ¬ p x = true := fun hp => hq (h x hp)
      rw [List.find?_cons_of_neg _ hp, ih]

theorem getAccount_saveAccount_other (ext : External) (db db1 : CAccountDBCache) (a : CAccount)
    (uid : CUserID) (h : db.SaveAccount ext a = some db1) (hne : uid ≠ a.uid) :
    db1.GetAccount uid = db.GetAccount uid := by
  unfold CAccountDBCache.SaveAccount at h
  split_ifs at h
  cases h
  unfold CAccountDBCache.GetAccount
  have hhead : decide (a.uid = uid) = false := by
    simp only [decide_eq_false_iff_not]
    exact fun h => hne h.symm
  show List.find? (fun b => decide (b.uid = uid))
    (a :: List.filter (fun b => !decide (b.uid = a.uid)) db.accounts) = _
  simp only [List.find?_cons, hhead]
  apply find_filter_of_imp
  intro x hx
  simp only [decide_eq_true_eq] at hx
  simp only [Bool.not_eq_true', decide_eq_false_iff_not]
  rw [hx]
  exact hne

theorem executeTx_of_saved (ext : External) (tx : CCoinUTXOTx) (context : CTxExecuteContext)
    (loaded registered srcAccount : CAccount) (accountCache : CAccountDBCache)
    (hacc : context.cw.accountCache.GetAccount tx.txUid = some loaded)
    (hreg : GenerateRegID ext tx context loaded = some registered)
    (hdeb : debitAccount ext tx registered = .ok srcAccount)
    (hsave : context.cw.accountCache.SaveAccount ext srcAccount = some accountCache) :
    ExecuteTx ext tx context =
      if (makeReceipts tx).isEmpty then
        (.ok (), { context.cw with accountCache := accountCache })
      else
        match context.cw.txReceiptCache.SetTxReceipts ext (ext.GetHash tx) (makeReceipts tx) with
        | none =>
          (.error (dosWith "CCDPStakeTx::ExecuteTx, set tx receipts failed!! txid=%s"
            [.text (toString (ext.GetHash tx))] .REJECT_INVALID "set-tx-receipt-failed"),
            { context.cw with accountCache := accountCache })
        | some txReceiptCache =>
          (.ok (), { accountCache := accountCache, txUtxoCache := context.cw.txUtxoCache,
                     txReceiptCache := txReceiptCache }) := by
  unfold ExecuteTx
  simp only [hacc, hreg, hdeb, hsave]

theorem executeTx_ok_inv (ext : External) (tx : CCoinUTXOTx) (context : CTxExecuteContext)
    (hok : (ExecuteTx ext tx context).1 = .ok ()) :
    ∃ loaded registered srcAccount accountCache,
      context.cw.accountCache.GetAccount tx.txUid = some loaded
        ∧ GenerateRegID ext tx context loaded = some registered
        ∧ debitAccount ext tx registered = .ok srcAccount
        ∧ context.cw.accountCache.SaveAccount ext srcAccount = some accountCache
        ∧ (ExecuteTx ext tx context).2.accountCache = accountCache
        ∧ (ExecuteTx ext tx context).2.txUtxoCache = context.cw.txUtxoCache
        ∧ ((makeReceipts tx = []
              ∧ (ExecuteTx ext tx context).2.txReceiptCache = context.cw.txReceiptCache)
            ∨ (makeReceipts tx ≠ []
              ∧ context.cw.txReceiptCache.SetTxReceipts ext (ext.GetHash tx) (makeReceipts tx)
                  = some (ExecuteTx ext tx context).2.txReceiptCache)) := by
  cases hacc : context.cw.accountCache.GetAccount tx.txUid with
  | none =>
    unfold ExecuteTx at hok
    simp [hacc] at hok
  | some loaded =>
    cases hreg : GenerateRegID ext tx context loaded with
    | none =>
      unfold ExecuteTx at hok
      simp [hacc, hreg] at hok
    | some registered =>
      cases hdeb : debitAccount ext tx registered with
      | error e =>
        unfold ExecuteTx at hok
        simp [hacc, hreg, hdeb] at hok
      | ok srcAccount =>
        cases hsave : context.cw.accountCache.SaveAccount ext srcAccount with
        | none =>
          unfold ExecuteTx at hok
          simp [hacc, hreg, hdeb, hsave] at hok
        | some accountCache =>
          have heq := executeTx_of_saved ext tx context loaded registered srcAccount
            accountCache hacc hreg hdeb hsave
          refine ⟨loaded, registered, srcAccount, accountCache, rfl, hreg, hdeb, hsave, ?_⟩
          rw [heq] at hok ⊢
          by_cases hempty : (makeReceipts tx).isEmpty = true
          · rw [if_pos hempty]
            exact ⟨rfl, rfl, Or.inl ⟨List.isEmpty_iff.mp hempty, rfl⟩⟩
          · rw [if_neg hempty] at hok ⊢
            have hne : makeReceipts tx ≠ [] := fun hnil => hempty (List.isEmpty_iff.mpr hnil)
            cases hset : context.cw.txReceiptCache.SetTxReceipts ext (ext.GetHash tx)
                (makeReceipts tx) with
            | none => simp [hset] at hok
            | some rc => exact ⟨rfl, rfl, Or.inr ⟨hne, rfl⟩⟩

theorem getTxReceipts_setTxReceipts (ext : External) (db db1 : CTxReceiptDBCache)
    (txid : uint256) (receipts : List CReceipt)
    (h : db.SetTxReceipts ext txid receipts = some db1) :
    db1.GetTxReceipts txid = some receipts := by
  unfold CTxReceiptDBCache.SetTxReceipts at h
  split_ifs at h
  cases h
  simp [CTxReceiptDBCache.GetTxReceipts]

theorem executeTx_txUtxoCache (ext : External) (tx : CCoinUTXOTx) (context : CTxExecuteContext) :
    (ExecuteTx ext tx context).2.txUtxoCache = context.cw.txUtxoCache := by
  unfold ExecuteTx
  simp only []
  split
  · rfl
  · split
    · rfl
    · split
      · rfl
      · split
        · rfl
        · split
          · rfl
          · split <;> rfl

theorem debitAccount_error (ext : External) (tx : CCoinUTXOTx) (a : CAccount) (e : Failure)
    (h : debitAccount ext tx a = .error e) : e ≠ setReceiptsFailure ext tx := by
  unfold debitAccount at h
  split at h
  · cases h
    simp [dosWith, setReceiptsFailure]
  · split at h
    · split at h
      · cases h
        simp [dosWith, setReceiptsFailure]
      · cases h
    · cases h

theorem executeTx_error_inv (ext : External) (tx : CCoinUTXOTx) (context : CTxExecuteContext)
    (e : Failure) (herr : (ExecuteTx ext tx context).1 = .error e) :
    ((ExecuteTx ext tx context).2 = context.cw ∧ e ≠ setReceiptsFailure ext tx)
      ∨ (e = setReceiptsFailure ext tx
          ∧ ∃ loaded registered srcAccount accountCache,
              context.cw.accountCache.GetAccount tx.txUid = some loaded
                ∧ GenerateRegID ext tx context loaded = some registered
                ∧ debitAccount ext tx registered = .ok srcAccount
                ∧ context.cw.accountCache.SaveAccount ext srcAccount = some accountCache
                ∧ (ExecuteTx ext tx context).2
                    = { context.cw with accountCache := accountCache }) := by
  cases hacc : context.cw.accountCache.GetAccount tx.txUid with
  | none =>
    left
    unfold ExecuteTx at herr ⊢
    simp only [hacc] at herr ⊢
    cases herr
    exact ⟨trivial, by simp [dosWith, setReceiptsFailure]⟩
  | some loaded =>
    cases hreg : GenerateRegID ext tx context loaded with
    | none =>
      left
      unfold ExecuteTx at herr ⊢
      simp only [hacc, hreg] at herr ⊢
      cases herr
      exact ⟨trivial, by simp [dosWith, setReceiptsFailure]⟩
    | some registered =>
      cases hdeb : debitAccount ext tx registered with
      | error e2 =>
        left
        unfold ExecuteTx at herr ⊢
        simp only [hacc, hreg, hdeb] at herr ⊢
        cases herr
        exact ⟨trivial, debitAccount_error ext tx registered _ hdeb⟩
      | ok srcAccount =>
        cases hsave : context.cw.accountCache.SaveAccount ext srcAccount with
        | none =>
          left
          unfold ExecuteTx at herr ⊢
          simp only [hacc, hreg, hdeb, hsave] at herr ⊢
          cases herr
          exact ⟨trivial, by simp [dosWith, setReceiptsFailure]⟩
        | some accountCache =>
          right
          have heq := executeTx_of_saved ext tx context loaded registered srcAccount
            accountCache hacc hreg hdeb hsave
          rw [heq] at herr ⊢
          by_cases hempty : (makeReceipts tx).isEmpty = true
          · rw [if_pos hempty] at herr
            cases herr
          · rw [if_neg hempty] at herr ⊢
            cases hset : context.cw.txReceiptCache.SetTxReceipts ext (ext.GetHash tx)
                (makeReceipts tx) with
            | none =>
              rw [hset] at herr
              simp only [Except.error.injEq] at herr
              exact ⟨herr.symm, loaded, registered, srcAccount, accountCache, rfl, hreg, hdeb,
                hsave, rfl⟩
            | some rc =>
              rw [hset] at herr
              cases herr

theorem checkFirstTimeUtxo_error (tx : CCoinUTXOTx) (srcAccount : CAccount) (f : Failure)
    (h : checkFirstTimeUtxo tx srcAccount = .error f) :
    ∃ msg reason, f = dosInside msg .REJECT_INVALID reason := by
  unfold checkFirstTimeUtxo at h
  split_ifs at h <;> cases h <;> exact ⟨_, _, rfl⟩

theorem checkPriorUtxo_error (ext : External) (tx : CCoinUTXOTx) (context : CTxExecuteContext)
    (f : Failure) (h : checkPriorUtxo ext tx context = .error f) :
    ∃ msg reason, f = dosInside msg .REJECT_INVALID reason := by
  unfold checkPriorUtxo at h
  split at h
  · cases h
    exact ⟨_, _, rfl⟩
  · split_ifs at h <;> cases h <;> exact ⟨_, _, rfl⟩

theorem withStores_self (context : CTxExecuteContext) : withStores context context.cw = context :=
  rfl

theorem checkPriorUtxoSt_stores (es : ExternalSt) (tx : CCoinUTXOTx) (height : Nat)
    (cw : CCacheWrapper) :
    (checkPriorUtxoSt es tx height cw).2 = (es.GetUtxoTx cw tx.prior_utxo_txid).2 := by
  unfold checkPriorUtxoSt
  simp only []
  split
  · rfl
  · split_ifs <;> rfl

theorem checkTxSt_stores (es : ExternalSt) (tx : CCoinUTXOTx) (context : CTxExecuteContext)
    (hro : ReadOnly es) : (CheckTxSt es tx context).2 = context.cw := by
  obtain ⟨h1, h2, h3, h4, h5, h6, h7⟩ := hro
  unfold CheckTxSt
  simp only [h1, h2, h3, h4, h5, h7, withStores_self]
  split_ifs with hgate hmemo hform hfee hkey hgen
  · rfl
  · rfl
  · rfl
  · rfl
  · rfl
  · split
    · rfl
    · split
      · rfl
      · split_ifs <;> rfl
  · simp only [checkPriorUtxoSt_stores, h6, withStores_self]
    split
    · rfl
    · split
      · rfl
      · split_ifs <;> rfl

theorem checkPriorUtxoSt_readOnly (ext : External) (tx : CCoinUTXOTx)
    (context : CTxExecuteContext) :
    checkPriorUtxoSt ext.readOnly tx context.height context.cw
      = (checkPriorUtxo ext tx context, context.cw) := by
  have hw : ∀ prior, wrongSecretSt ext.readOnly tx prior = wrongSecret ext tx prior :=
    fun _ => rfl
  unfold checkPriorUtxoSt checkPriorUtxo
  simp only [hw]
  simp only [External.readOnly]
  cases hres : context.cw.txUtxoCache.GetUtxoTx tx.prior_utxo_txid with
  | none => rfl
  | some found =>
    obtain ⟨priorTxBlockHeight, priorUtxoTx⟩ := found
    simp only []
    split_ifs <;> rfl

theorem checkTxSt_readOnly (ext : External) (tx : CCoinUTXOTx) (context : CTxExecuteContext) :
    CheckTxSt ext.readOnly tx context = (CheckTx ext tx context, context.cw) := by
  have hkey : badPublicKeySt ext.readOnly tx = badPublicKey ext tx := rfl
  have hprior := checkPriorUtxoSt_readOnly ext tx context
  unfold CheckTxSt CheckTx
  simp only [hkey]
  simp only [External.readOnly, withStores_self] at hprior ⊢
  split_ifs with h1 h2 h3 h4 h5 hgen
  · rfl
  · rfl
  · rfl
  · rfl
  · rfl
  · cases hacc : context.cw.accountCache.GetAccount tx.txUid with
    | none => rfl
    | some srcAccount =>
      simp only []
      cases checkFirstTimeUtxo tx srcAccount with
      | error e => rfl
      | ok u => split_ifs <;> rfl
  · cases hacc : context.cw.accountCache.GetAccount tx.txUid with
    | none => rfl
    | some srcAccount =>
      simp only [hprior]
      cases checkPriorUtxo ext tx context with
      | error e => rfl
      | ok u => split_ifs <;> rfl

theorem readOnly_readOnly (ext : External) : ReadOnly ext.readOnly :=
  ⟨fun _ => rfl, fun _ _ => rfl, fun _ _ => rfl, fun _ _ => rfl, fun _ _ => rfl,
    fun _ _ => rfl, fun _ _ _ => rfl⟩

theorem checkTxSt_verdict_congr (es : ExternalSt) (tx : CCoinUTXOTx) (c1 c2 : CTxExecuteContext)
    (hro : ReadOnly es) (hdep : ReadsHeightAndStores es)
    (hheight : c1.height = c2.height) (hcw : c1.cw = c2.cw) :
    (CheckTxSt es tx c1).1 = (CheckTxSt es tx c2).1 := by
  obtain ⟨h1, h2, h3, h4, h5, h6, h7⟩ := hro
  obtain ⟨d1, d2, d3, d4, d5⟩ := hdep c1 c2 hheight hcw
  unfold CheckTxSt
  by_cases hgen : tx.prior_utxo_txid = 0
  · simp only [hgen, if_true, h1, h2, h3, h4, h5, h7, withStores_self]
    simp only [d1, d2, d3, d4, d5, hcw]
  · simp only [hgen, if_false, h1, h2, h3, h4, h5, h6, h7, withStores_self,
      checkPriorUtxoSt_stores]
    simp only [d1, d2, d3, d4, d5, hheight, hcw]

theorem readsHeightAndStores_readOnly (ext : External)
    (hfee : ∀ tx (c1 c2 : CTxExecuteContext), c1.height = c2.height → c1.cw = c2.cw →
      ext.CheckFee tx c1 = ext.CheckFee tx c2) :
    ReadsHeightAndStores ext.readOnly := by
  intro c1 c2 hheight hcw
  refine ⟨?_, fun _ => rfl, fun _ => rfl, fun tx => hfee tx c1 c2 hheight hcw, fun _ _ => rfl⟩
  show ext.stableCoinReleased c1.height = ext.stableCoinReleased c2.height
  rw [hheight]

theorem extOk_checkFee_congr (tx : CCoinUTXOTx) (c1 c2 : CTxExecuteContext)
    (_hheight : c1.height = c2.height) (hcw : c1.cw = c2.cw) :
    extOk.CheckFee tx c1 = extOk.CheckFee tx c2 := by
  simp only [extOk, hcw]

theorem find_filter_not_eq_none {α : Type} (p : α → Bool) (l : List α) :
    (l.filter (fun e => !p e)).find? p = none := by
  rw [List.find?_eq_none]
  intro x hx
  have := (List.mem_filter.mp hx).2
  simpa using this

theorem undo_credits (tx : CCoinUTXOTx) (account : CAccount) (symbol : TokenSymbol) :
    (undoAccount tx account).free_amount symbol
      = account.free_amount symbol + debitOf tx symbol := by
  unfold undoAccount debitOf CAccount.creditFree
  by_cases hgen : tx.prior_utxo_txid = 0
  · simp only [hgen, if_true, true_and]
    by_cases h1 : symbol = tx.fee_symbol <;> by_cases h2 : symbol = tx.utxo.coin_symbol
    · subst h1
      rw [← h2]
      simp only [Function.update_same, if_true]
      omega
    · subst h1
      have h3 : tx.fee_symbol ≠ tx.utxo.coin_symbol := h2
      simp [h2, Function.update_noteq h3]
    · subst h2
      have h3 : tx.utxo.coin_symbol ≠ tx.fee_symbol := h1
      simp [h1, Function.update_noteq h3]
    · simp [h1, h2, Function.update_noteq h1, Function.update_noteq h2]
  · simp only [hgen, if_false, false_and, Nat.add_zero]
    by_cases h1 : symbol = tx.fee_symbol
    · subst h1
      simp
    · simp [h1, Function.update_noteq h1]

theorem undo_uid (tx : CCoinUTXOTx) (account : CAccount) :
    (undoAccount tx account).uid = account.uid := by
  unfold undoAccount
  simp only []
  split <;> rfl

theorem run_len_le {T : Type} (ops : List (MsgOp T)) (q0 q : MsgQueue T)
    (h0 : q0.Len ≤ MSG_QUEUE_MAX_LEN) (h : MsgQueue.run q0 ops = some q) :
    q.Len ≤ MSG_QUEUE_MAX_LEN := by
  induction ops generalizing q0 with
  | nil =>
    simp only [MsgQueue.run, Option.some.injEq] at h
    rw [← h]
    exact h0
  | cons op ops ih =>
    cases op with
    | push t =>
      simp only [MsgQueue.run] at h
      cases hpush : q0.Push t with
      | none => simp [hpush] at h
      | some q1 =>
        simp only [hpush] at h
        refine ih q1 ?_ h
        unfold MsgQueue.Push at hpush
        split_ifs at hpush with hfull
        cases hpush
        simp only [MsgQueue.Len, List.length_append, List.length_singleton] at h0 ⊢
        omega
    | pop target =>
      simp only [MsgQueue.run] at h
      refine ih _ ?_ h
      unfold MsgQueue.Pop
      cases hq : q0.mq with
      | nil =>
        simp only []
        exact h0
      | cons front rest =>
        simp only [MsgQueue.Len, hq, List.length_cons] at h0 ⊢
        omega

theorem pushAll_eq {T : Type} (items l : List T)
    (h : l.length + items.length ≤ MSG_QUEUE_MAX_LEN) :
    MsgQueue.pushAll { mq := l } items = some { mq := l ++ items } := by
  induction items generalizing l with
  | nil => simp [MsgQueue.pushAll]
  | cons t ts ih =>
    simp only [List.length_cons] at h
    have hne : ¬ l.length = MSG_QUEUE_MAX_LEN := by omega
    simp only [MsgQueue.pushAll, MsgQueue.Push, hne, if_false]
    rw [ih (l ++ [t]) (by simp only [List.length_append, List.length_singleton]; omega)]
    simp

theorem popN_eq {T : Type} (cell : T) (items : List T) :
    MsgQueue.popN cell { mq := items } items.length
      = (items.map (fun x => (true, some x)), { mq := [] }) := by
  induction items with
  | nil => rfl
  | cons t ts ih =>
    simp only [List.length_cons, MsgQueue.popN, MsgQueue.Pop, Option.map_some', List.map_cons, ih]

/-! ## C1: acceptance of a genesis link -/

/-- C1: for every genesis transaction (`prior_utxo_txid` is zero) whose generic checks
pass and whose sender account exists in the account store, `CheckTx` accepts if and
only if `utxo.is_null` is false, `utxo.coin_amount > 0`, and the `FREE_VALUE` balance
of the sender in `utxo.coin_symbol` is at least `utxo.coin_amount`. -/
theorem genesis_accept_iff (ext : External) (tx : CCoinUTXOTx) (context : CTxExecuteContext)
    (srcAccount : CAccount)
    (hgenesis : tx.prior_utxo_txid = 0)
    (hacc : context.cw.accountCache.GetAccount tx.txUid = some srcAccount)
    (hpass : GenericChecksPass ext tx context srcAccount) :
    CheckTx ext tx context = .ok () ↔
      (tx.utxo.is_null = false ∧ 0 < tx.utxo.coin_amount
        ∧ tx.utxo.coin_amount ≤ srcAccount.GetBalance tx.utxo.coin_symbol .FREE_VALUE) := by
  rw [checkTx_eq_branch ext tx context srcAccount hacc hpass, if_pos hgenesis]
  unfold checkFirstTimeUtxo
  by_cases hnull : tx.utxo.is_null = true
  · simp [hnull]
  · by_cases hzero : tx.utxo.coin_amount = 0
    · simp [hnull, hzero]
    · by_cases hbal : srcAccount.GetBalance tx.utxo.coin_symbol .FREE_VALUE < tx.utxo.coin_amount
      · simp [hnull, hzero, hbal]
      · simp [hnull, hzero, hbal]
        omega

/-- The genesis link of scenario 1 meets the hypotheses of `genesis_accept_iff`. -/
theorem genesis_accept_iff_witness :
    genesisTx.prior_utxo_txid = 0
      ∧ genesisContext.cw.accountCache.GetAccount genesisTx.txUid = some (wiccAccount uidS 100)
      ∧ GenericChecksPass extOk genesisTx genesisContext (wiccAccount uidS 100)
      ∧ (CheckTx extOk genesisTx genesisContext = .ok () ↔
          (genesisTx.utxo.is_null = false ∧ 0 < genesisTx.utxo.coin_amount
            ∧ genesisTx.utxo.coin_amount
                ≤ (wiccAccount uidS 100).GetBalance genesisTx.utxo.coin_symbol .FREE_VALUE)) :=
  ⟨rfl, rfl, ⟨rfl, rfl, rfl, by decide, rfl, rfl⟩,
    genesis_accept_iff extOk genesisTx genesisContext (wiccAccount uidS 100) rfl rfl
      ⟨rfl, rfl, rfl, by decide, rfl, rfl⟩⟩

/-! ## C2: execution of an accepted genesis link -/

/-- C2 (amended): for every genesis transaction that `CheckTx` accepts against a
ledger, if moreover the free balance of the sender covers the fee on top of the
locked amount (`llFees` in `fee_symbol`, plus `utxo.coin_amount` when the two symbols
are the same) and the external steps (`GenerateRegID`, `SaveAccount`,
`SetTxReceipts`) succeed, then `ExecuteTx` on that ledger succeeds and the saved
sender account has, in every symbol, exactly `debitOf tx symbol` less than before:
`llFees` of `fee_symbol` plus `utxo.coin_amount` of `utxo.coin_symbol`. -/
theorem genesis_execute_debits (ext : External) (tx : CCoinUTXOTx) (context : CTxExecuteContext)
    (srcAccount : CAccount)
    (hgenesis : tx.prior_utxo_txid = 0)
    (hacc : context.cw.accountCache.GetAccount tx.txUid = some srcAccount)
    (haccept : CheckTx ext tx context = .ok ())
    (hfee : tx.llFees + (if tx.fee_symbol = tx.utxo.coin_symbol then tx.utxo.coin_amount else 0)
      ≤ srcAccount.free_amount tx.fee_symbol)
    (hreg : (GenerateRegID ext tx context srcAccount).isSome = true)
    (hsave : ∀ a, ext.saveAccountOk context.cw.accountCache a = true)
    (hrcpt : ∀ receipts,
      ext.setTxReceiptsOk context.cw.txReceiptCache (ext.GetHash tx) receipts = true) :
    (ExecuteTx ext tx context).1 = .ok ()
      ∧ ∃ after, (ExecuteTx ext tx context).2.accountCache.GetAccount tx.txUid = some after
          ∧ ∀ symbol, after.free_amount symbol + debitOf tx symbol
              = srcAccount.free_amount symbol := by
  have hok : (ExecuteTx ext tx context).1 = .ok () := by
    obtain ⟨src2, hacc2, _, hbranch⟩ := accepts_inv ext tx context haccept
    rw [hacc] at hacc2
    cases hacc2
    rw [if_pos hgenesis] at hbranch
    obtain ⟨hnull, hpos, hamount⟩ := checkFirstTimeUtxo_ok tx srcAccount hbranch
    unfold ExecuteTx
    simp only [hacc]
    cases hreg2 : GenerateRegID ext tx context srcAccount with
    | none => rw [hreg2] at hreg; exact absurd hreg (by simp)
    | some registered =>
      obtain ⟨_, hrfree⟩ := generateRegID_some _ _ _ _ _ hreg2
      simp only []
      have hdeb : ∃ final, debitAccount ext tx registered = .ok final := by
        unfold debitAccount
        have hle1 : tx.llFees ≤ registered.free_amount tx.fee_symbol := by
          rw [hrfree]; omega
        obtain ⟨afterFee, hfee1⟩ := operateBalance_of_le registered tx.fee_symbol tx.llFees hle1
        obtain ⟨_, _, hfree1⟩ := operateBalance_some _ _ _ _ hfee1
        have hle2 : tx.utxo.coin_amount ≤ afterFee.free_amount tx.utxo.coin_symbol := by
          rw [hfree1, hrfree]
          by_cases hsym : tx.fee_symbol = tx.utxo.coin_symbol
          · rw [if_pos hsym] at hfee
            rw [← hsym, Function.update_same]
            omega
          · have hne : tx.utxo.coin_symbol ≠ tx.fee_symbol := fun h => hsym h.symm
            rw [Function.update_noteq hne]
            exact hamount
        obtain ⟨afterUtxo, hutxo⟩ :=
          operateBalance_of_le afterFee tx.utxo.coin_symbol tx.utxo.coin_amount hle2
        simp only [hfee1, hgenesis, if_true, hutxo]
        exact ⟨_, rfl⟩
      obtain ⟨final, hdeb⟩ := hdeb
      simp only [hdeb, CAccountDBCache.SaveAccount, hsave, if_true,
        CTxReceiptDBCache.SetTxReceipts, hrcpt]
      split <;> rfl
  exact ⟨hok, executeTx_ok_debits ext tx context srcAccount hacc hok⟩

/-- The genesis link of scenario 1 meets the hypotheses of `genesis_execute_debits`,
and the balance of 100 WICC becomes 100 - 1 - 50. -/
theorem genesis_execute_debits_witness :
    genesisTx.prior_utxo_txid = 0
      ∧ CheckTx extOk genesisTx genesisContext = .ok ()
      ∧ (ExecuteTx extOk genesisTx genesisContext).1 = .ok ()
      ∧ ∃ after,
          (ExecuteTx extOk genesisTx genesisContext).2.accountCache.GetAccount genesisTx.txUid
            = some after
          ∧ after.free_amount "WICC" = 100 - 1 - 50 := by
  obtain ⟨hok, after, hget, hdebit⟩ :=
    genesis_execute_debits extOk genesisTx genesisContext (wiccAccount uidS 100) rfl rfl
      (by decide) (by decide) (by decide) (fun _ => rfl) (fun _ => rfl)
  refine ⟨rfl, by decide, hok, after, hget, ?_⟩
  have h := hdebit "WICC"
  have h2 : debitOf genesisTx "WICC" = 51 := by decide
  have h3 : (wiccAccount uidS 100).free_amount "WICC" = 100 := by decide
  omega

/-- C2, as stated, fails: S holds 100 WICC and locks 100 WICC with a fee of 1. Every
generic check passes (the fee of 1 is payable from 100) and the balance covers the
amount, so `CheckTx` accepts; `ExecuteTx` debits the fee first and then cannot debit
100 from the remaining 99. -/
theorem genesis_accepted_execute_fails :
    overdrawnTx.prior_utxo_txid = 0
      ∧ CheckTx extOk overdrawnTx genesisContext = .ok ()
      ∧ (ExecuteTx extOk overdrawnTx genesisContext).1
          = .error (dosWith
              "CCoinUTXOTx::ExecuteTx, failed to deduct coin_amount in txUid %s account"
              [.text "R1"] .UPDATE_ACCOUNT_FAIL "insufficient-fund-utxo") := by
  decide

/-! ## C3: the time lock -/

/-- C3 (failing input): the link with id 1 was committed at height 100 and locks its
output for `2 ^ 64 - 1` blocks. At height 101 the lock has not elapsed
(`101 < 100 + (2 ^ 64 - 1)` in exact arithmetic), yet `CheckTx` accepts the claim of
the beneficiary: the 64-bit sum of line 59 wraps around to 99. -/
theorem lock_overflow_accepted :
    foreverLockedTx.utxo.lock_duration < 2 ^ 64
      ∧ (101 : Nat) < 100 + foreverLockedTx.utxo.lock_duration
      ∧ (claimTx uidB nullOutput).prior_utxo_txid ≠ 0
      ∧ (claimContext 101 100 foreverLockedTx).cw.txUtxoCache.GetUtxoTx
          (claimTx uidB nullOutput).prior_utxo_txid = some (100, foreverLockedTx)
      ∧ CheckTx extOk (claimTx uidB nullOutput) (claimContext 101 100 foreverLockedTx)
          = .ok () := by
  decide

/-! ## C4: the hash lock -/

/-- What the hash-lock check does: a continuation transaction whose prior output has a
non-zero `secret_hash` is never accepted, whatever secret it reveals, and when the
earlier checks pass the rejection is the one of lines 69-72. -/
theorem hash_locked_never_accepted (ext : External) (tx : CCoinUTXOTx)
    (context : CTxExecuteContext) (priorTxBlockHeight : Nat) (priorUtxoTx : CCoinUTXOTx)
    (hcont : tx.prior_utxo_txid ≠ 0)
    (hres : context.cw.txUtxoCache.GetUtxoTx tx.prior_utxo_txid
      = some (priorTxBlockHeight, priorUtxoTx))
    (hhash : priorUtxoTx.utxo.htlc_cond.secret_hash ≠ 0) :
    CheckTx ext tx context ≠ .ok ()
      ∧ ∀ srcAccount, context.cw.accountCache.GetAccount tx.txUid = some srcAccount →
          GenericChecksPass ext tx context srcAccount → priorUtxoTx.utxo.is_null = false →
          (priorTxBlockHeight + priorUtxoTx.utxo.lock_duration) % UINT64_MOD ≤ context.height →
          CheckTx ext tx context = .error wrongSecretFailure := by
  constructor
  · intro h
    have h2 := (checkPriorUtxo_ok_iff ext tx context _ _ hres).mp
      (continuation_accepted ext tx context hcont h)
    exact hhash h2.2.2.1
  · intro srcAccount hacc hpass hnull hlock
    rw [checkTx_continuation ext tx context srcAccount hcont hacc hpass]
    unfold checkPriorUtxo
    simp only [hres]
    rw [if_neg (by simp [hnull]), if_neg (by omega),
      if_pos ⟨hhash, wrongSecret_of_ne_zero ext tx priorUtxoTx hhash⟩]
    rfl

/-- C4 (failing input): the link with id 1 locks its output behind the non-zero hash
`secret_hash = 12345`. Whatever secret the beneficiary reveals, the one whose
canonical hash is `secret_hash` included, `CheckTx` rejects the claim as a wrong
secret: the value compared with `secret_hash` is the default `uint256`, which is
zero, not a hash of the text. -/
theorem hash_locked_claim_rejected :
    ∀ secret : String,
      CheckTx extOk (secretClaimTx secret) (claimContext 15 1 (hashLockedTx 12345))
        = .error wrongSecretFailure := by
  intro secret
  exact (hash_locked_never_accepted extOk (secretClaimTx secret)
    (claimContext 15 1 (hashLockedTx 12345)) 1 (hashLockedTx 12345)
    (by show (1 : Nat) ≠ 0; decide) rfl (by show (12345 : Nat) ≠ 0; decide)).2
    (wiccAccount uidB 10) rfl ⟨rfl, rfl, rfl, rfl, rfl, rfl⟩ rfl
    (by show (1 + 0) % UINT64_MOD ≤ 15; decide)

/-! ## C5: ownership -/

/-- C5: for every continuation transaction whose sender (`txUid`) differs from the
beneficiary (`to_uid`) of the resolved prior output, `CheckTx` rejects, and when the
checks before the ownership check pass the rejection is the one of lines 87-90
(`priro-utxo-wrong-txUid`); equivalently, every continuation transaction that
`CheckTx` accepts has `txUid` equal to the `to_uid` of the prior output. -/
theorem wrong_claimant_rejected (ext : External) (tx : CCoinUTXOTx)
    (context : CTxExecuteContext) (priorTxBlockHeight : Nat) (priorUtxoTx : CCoinUTXOTx)
    (hcont : tx.prior_utxo_txid ≠ 0)
    (hres : context.cw.txUtxoCache.GetUtxoTx tx.prior_utxo_txid
      = some (priorTxBlockHeight, priorUtxoTx)) :
    (tx.txUid ≠ priorUtxoTx.utxo.to_uid → CheckTx ext tx context ≠ .ok ())
      ∧ (CheckTx ext tx context = .ok () → tx.txUid = priorUtxoTx.utxo.to_uid)
      ∧ (tx.txUid ≠ priorUtxoTx.utxo.to_uid →
          ∀ srcAccount, context.cw.accountCache.GetAccount tx.txUid = some srcAccount →
            GenericChecksPass ext tx context srcAccount →
            PriorChecksPass context priorTxBlockHeight priorUtxoTx →
            CheckTx ext tx context = .error wrongTxUidFailure) := by
  have hacc : CheckTx ext tx context = .ok () → tx.txUid = priorUtxoTx.utxo.to_uid := by
    intro h
    exact ((checkPriorUtxo_ok_iff ext tx context _ _ hres).mp
      (continuation_accepted ext tx context hcont h)).2.2.2.1
  refine ⟨fun hne h => hne (hacc h), hacc, ?_⟩
  intro hne srcAccount hsrc hpass hprior
  rw [checkTx_continuation ext tx context srcAccount hcont hsrc hpass]
  exact checkPriorUtxo_wrong_txUid ext tx context _ _ hres hprior hne

/-- The link of scenario 1 (committed at height 1, locked for 10 blocks, beneficiary B)
claimed by S at height 15: the hypotheses of `wrong_claimant_rejected` hold and the
claim is rejected by the ownership check. -/
theorem wrong_claimant_rejected_witness :
    (claimTx uidS nullOutput).prior_utxo_txid ≠ 0
      ∧ (claimTx uidS nullOutput).txUid ≠ genesisTx.utxo.to_uid
      ∧ CheckTx extOk (claimTx uidS nullOutput) (claimContext 15 1 genesisTx)
          = .error wrongTxUidFailure :=
  ⟨by decide, by decide,
    (wrong_claimant_rejected extOk (claimTx uidS nullOutput) (claimContext 15 1 genesisTx)
      1 genesisTx (by decide) (by decide)).2.2 (by decide) (wiccAccount uidS 49) rfl
      ⟨rfl, rfl, rfl, by decide, rfl, rfl⟩ ⟨by decide, by decide, by decide⟩⟩

/-! ## C6: value conservation -/

/-- C6: for every continuation transaction with a non-null output whose prior link
resolves, if `CheckTx` accepts then `0 < utxo.coin_amount` and `utxo.coin_amount` is at
most the `coin_amount` of the prior output; an output larger than the prior amount is
rejected, and when every earlier check passes the rejection is the one of lines
99-101 (`prior-utxo-fund-insufficient`). -/
theorem continuation_amount_bounded (ext : External) (tx : CCoinUTXOTx)
    (context : CTxExecuteContext) (priorTxBlockHeight : Nat) (priorUtxoTx : CCoinUTXOTx)
    (hcont : tx.prior_utxo_txid ≠ 0)
    (hres : context.cw.txUtxoCache.GetUtxoTx tx.prior_utxo_txid
      = some (priorTxBlockHeight, priorUtxoTx))
    (hnonnull : tx.utxo.is_null = false) :
    (CheckTx ext tx context = .ok () →
        0 < tx.utxo.coin_amount ∧ tx.utxo.coin_amount ≤ priorUtxoTx.utxo.coin_amount)
      ∧ (priorUtxoTx.utxo.coin_amount < tx.utxo.coin_amount → CheckTx ext tx context ≠ .ok ())
      ∧ (priorUtxoTx.utxo.coin_amount < tx.utxo.coin_amount →
          ∀ srcAccount, context.cw.accountCache.GetAccount tx.txUid = some srcAccount →
            GenericChecksPass ext tx context srcAccount →
            PriorChecksPass context priorTxBlockHeight priorUtxoTx →
            tx.txUid = priorUtxoTx.utxo.to_uid →
            timeout_height priorTxBlockHeight priorUtxoTx ≤ context.height →
            CheckTx ext tx context = .error fundInsufficientFailure) := by
  have hacc : CheckTx ext tx context = .ok () →
      0 < tx.utxo.coin_amount ∧ tx.utxo.coin_amount ≤ priorUtxoTx.utxo.coin_amount := by
    intro h
    exact ((checkPriorUtxo_ok_iff ext tx context _ _ hres).mp
      (continuation_accepted ext tx context hcont h)).2.2.2.2.2 hnonnull
  refine ⟨hacc, fun hgt h => ?_, ?_⟩
  · have := hacc h
    omega
  · intro hgt srcAccount hsrc hpass hprior huid htimeout
    obtain ⟨h1, h2, h3⟩ := hprior
    rw [checkTx_continuation ext tx context srcAccount hcont hsrc hpass]
    unfold checkPriorUtxo
    simp only [hres]
    rw [if_neg (by simp [h1]), if_neg (by omega), if_neg (fun h => h.1 h3),
      if_neg (fun h => absurd h.2 (by omega)), if_neg (fun h => h huid.symm),
      if_neg (fun h => absurd h.2 (by omega)), if_pos ⟨hnonnull, hgt⟩]
    rfl

/-- Scenario 3: B claims the link of scenario 1 (50 WICC locked) at height 15 and locks
60 WICC again: the hypotheses of `continuation_amount_bounded` hold and the
transaction is rejected by the fund check. -/
theorem continuation_amount_bounded_witness :
    (claimTx uidB (wiccOutput 60 uidS 0)).prior_utxo_txid ≠ 0
      ∧ (claimTx uidB (wiccOutput 60 uidS 0)).utxo.is_null = false
      ∧ genesisTx.utxo.coin_amount < (claimTx uidB (wiccOutput 60 uidS 0)).utxo.coin_amount
      ∧ CheckTx extOk (claimTx uidB (wiccOutput 60 uidS 0)) (claimContext 15 1 genesisTx)
          = .error fundInsufficientFailure :=
  ⟨by decide, rfl, by decide,
    (continuation_amount_bounded extOk (claimTx uidB (wiccOutput 60 uidS 0))
      (claimContext 15 1 genesisTx) 1 genesisTx (by decide) (by decide) rfl).2.2 (by decide)
      (wiccAccount uidB 10) rfl ⟨rfl, rfl, rfl, by decide, rfl, rfl⟩
      ⟨by decide, by decide, by decide⟩ (by decide) (by decide)⟩

/-! ## C7: the collect timeout of the beneficiary -/

/-- C7 (failing input): the link with id 1 was committed at height 100 with a lock
duration of 10 and a collect timeout of `2 ^ 64 - 1`. At height 200 the earlier checks
pass (the lock height 110 is reached, there is no hash lock) and the height is
below `100 + 10 + (2 ^ 64 - 1)`, yet `CheckTx` accepts the claim of the beneficiary:
the 64-bit sum of lines 77-79 wraps around to 109. -/
theorem timeout_overflow_accepted :
    longTimeoutTx.utxo.htlc_cond.collect_timeout < 2 ^ 64
      ∧ (claimTx uidB nullOutput).txUid = longTimeoutTx.utxo.to_uid
      ∧ PriorChecksPass (claimContext 200 100 longTimeoutTx) 100 longTimeoutTx
      ∧ (200 : Nat) < 100 + longTimeoutTx.utxo.lock_duration
          + longTimeoutTx.utxo.htlc_cond.collect_timeout
      ∧ timeout_height 100 longTimeoutTx = 109
      ∧ CheckTx extOk (claimTx uidB nullOutput) (claimContext 200 100 longTimeoutTx)
          = .ok () := by
  refine ⟨by decide, by decide, ⟨by decide, by decide, by decide⟩, by decide, by decide,
    by decide⟩

/-- What the timeout check does when the sum does not leave the 64-bit range: a
continuation transaction sent by the beneficiary of the prior output is not accepted
at a height below `priorTxBlockHeight + lock_duration + collect_timeout`, and when
the earlier checks pass the rejection is the one of lines 81-84. -/
theorem not_timeout_rejected_of_no_overflow (ext : External) (tx : CCoinUTXOTx)
    (context : CTxExecuteContext) (priorTxBlockHeight : Nat) (priorUtxoTx : CCoinUTXOTx)
    (hcont : tx.prior_utxo_txid ≠ 0)
    (hres : context.cw.txUtxoCache.GetUtxoTx tx.prior_utxo_txid
      = some (priorTxBlockHeight, priorUtxoTx))
    (huid : tx.txUid = priorUtxoTx.utxo.to_uid)
    (hrange : priorTxBlockHeight + priorUtxoTx.utxo.lock_duration
      + priorUtxoTx.utxo.htlc_cond.collect_timeout < UINT64_MOD)
    (hearly : context.height < priorTxBlockHeight + priorUtxoTx.utxo.lock_duration
      + priorUtxoTx.utxo.htlc_cond.collect_timeout) :
    CheckTx ext tx context ≠ .ok ()
      ∧ ∀ srcAccount, context.cw.accountCache.GetAccount tx.txUid = some srcAccount →
          GenericChecksPass ext tx context srcAccount →
          PriorChecksPass context priorTxBlockHeight priorUtxoTx →
          CheckTx ext tx context = .error notTimeoutFailure := by
  have hmod1 : (priorTxBlockHeight + priorUtxoTx.utxo.lock_duration) % UINT64_MOD
      = priorTxBlockHeight + priorUtxoTx.utxo.lock_duration :=
    Nat.mod_eq_of_lt (by omega)
  have hmod : timeout_height priorTxBlockHeight priorUtxoTx
      = priorTxBlockHeight + priorUtxoTx.utxo.lock_duration
        + priorUtxoTx.utxo.htlc_cond.collect_timeout := by
    unfold timeout_height
    rw [hmod1]
    exact Nat.mod_eq_of_lt hrange
  constructor
  · intro h
    have h2 := (checkPriorUtxo_ok_iff ext tx context _ _ hres).mp
      (continuation_accepted ext tx context hcont h)
    omega
  · intro srcAccount hacc hpass hprior
    obtain ⟨h1, h2, h3⟩ := hprior
    rw [checkTx_continuation ext tx context srcAccount hcont hacc hpass]
    unfold checkPriorUtxo
    simp only [hres]
    rw [if_neg (by simp [h1]), if_neg (by omega), if_neg (fun h => h.1 h3),
      if_pos ⟨huid, by omega⟩]
    rfl

/-- The second half of the claim on the collect timeout: with `collect_timeout = 0` and
no hash lock, the claim of the beneficiary is accepted once the lock height is
reached, provided the generic checks pass, the sender account exists, the prior
output is not null and the new output is null or within the prior amount. This
covers scenario 1: lock duration 10, commit height at most 5, claim at height 15. -/
theorem beneficiary_claim_accepted (ext : External) (tx : CCoinUTXOTx)
    (context : CTxExecuteContext) (priorTxBlockHeight : Nat) (priorUtxoTx : CCoinUTXOTx)
    (srcAccount : CAccount)
    (hcont : tx.prior_utxo_txid ≠ 0)
    (hres : context.cw.txUtxoCache.GetUtxoTx tx.prior_utxo_txid
      = some (priorTxBlockHeight, priorUtxoTx))
    (hacc : context.cw.accountCache.GetAccount tx.txUid = some srcAccount)
    (hpass : GenericChecksPass ext tx context srcAccount)
    (huid : tx.txUid = priorUtxoTx.utxo.to_uid)
    (hnull : priorUtxoTx.utxo.is_null = false)
    (hhash : priorUtxoTx.utxo.htlc_cond.secret_hash = 0)
    (htimeout : priorUtxoTx.utxo.htlc_cond.collect_timeout = 0)
    (hlock : priorTxBlockHeight + priorUtxoTx.utxo.lock_duration ≤ context.height)
    (hout : tx.utxo.is_null = false →
      0 < tx.utxo.coin_amount ∧ tx.utxo.coin_amount ≤ priorUtxoTx.utxo.coin_amount) :
    CheckTx ext tx context = .ok () := by
  rw [checkTx_continuation ext tx context srcAccount hcont hacc hpass]
  have hle : (priorTxBlockHeight + priorUtxoTx.utxo.lock_duration) % UINT64_MOD
      ≤ context.height := le_trans (Nat.mod_le _ _) hlock
  refine (checkPriorUtxo_ok_iff ext tx context _ _ hres).mpr ⟨hnull, hle, hhash, huid, ?_, hout⟩
  unfold timeout_height
  rw [htimeout, Nat.add_zero, Nat.mod_mod]
  exact hle

/-- Scenario 1: the link locks 50 WICC to B for 10 blocks and is committed at height 1;
the claim of B is rejected as locked at height 5 and accepted at height 15. -/
theorem scenario1_claim :
    CheckTx extOk (claimTx uidB nullOutput) (claimContext 5 1 genesisTx) = .error lockedFailure
      ∧ CheckTx extOk (claimTx uidB nullOutput) (claimContext 15 1 genesisTx) = .ok () := by
  decide

/-! ## C8: reclaim by the original sender -/

/-- What the ownership check of lines 87-90 does to the reclaim path: no continuation
transaction sent by the original sender of the prior link, when that sender is not
the beneficiary of the prior output, is accepted by `CheckTx`, at whatever height,
the heights past `priorTxBlockHeight + lock_duration + collect_timeout` included. -/
theorem no_reclaim_by_original_sender :
    ¬ ∃ (ext : External) (tx : CCoinUTXOTx) (context : CTxExecuteContext)
        (priorTxBlockHeight : Nat) (priorUtxoTx : CCoinUTXOTx),
        tx.prior_utxo_txid ≠ 0
          ∧ context.cw.txUtxoCache.GetUtxoTx tx.prior_utxo_txid
              = some (priorTxBlockHeight, priorUtxoTx)
          ∧ tx.txUid = priorUtxoTx.txUid
          ∧ tx.txUid ≠ priorUtxoTx.utxo.to_uid
          ∧ priorTxBlockHeight + priorUtxoTx.utxo.lock_duration
              + priorUtxoTx.utxo.htlc_cond.collect_timeout ≤ context.height
          ∧ CheckTx ext tx context = .ok () := by
  rintro ⟨ext, tx, context, priorTxBlockHeight, priorUtxoTx, hcont, hres, _, hne, _, hok⟩
  exact hne ((checkPriorUtxo_ok_iff ext tx context _ _ hres).mp
    (continuation_accepted ext tx context hcont hok)).2.2.2.1

/-- The rejection of the original sender in general: a continuation transaction sent by
the original sender of the prior link, when that sender is not the beneficiary
(`to_uid`) of the prior output, is rejected by `CheckTx` at every height; when the
checks before the ownership check pass, the rejection is the one of lines 87-90
(`priro-utxo-wrong-txUid`). -/
theorem original_sender_rejected (ext : External) (tx : CCoinUTXOTx)
    (context : CTxExecuteContext) (priorTxBlockHeight : Nat) (priorUtxoTx : CCoinUTXOTx)
    (hcont : tx.prior_utxo_txid ≠ 0)
    (hres : context.cw.txUtxoCache.GetUtxoTx tx.prior_utxo_txid
      = some (priorTxBlockHeight, priorUtxoTx))
    (hsender : tx.txUid = priorUtxoTx.txUid)
    (hne : priorUtxoTx.txUid ≠ priorUtxoTx.utxo.to_uid) :
    CheckTx ext tx context ≠ .ok ()
      ∧ ∀ srcAccount, context.cw.accountCache.GetAccount tx.txUid = some srcAccount →
          GenericChecksPass ext tx context srcAccount →
          PriorChecksPass context priorTxBlockHeight priorUtxoTx →
          CheckTx ext tx context = .error wrongTxUidFailure := by
  have hne2 : tx.txUid ≠ priorUtxoTx.utxo.to_uid := by rw [hsender]; exact hne
  constructor
  · intro hok
    exact hne2 ((checkPriorUtxo_ok_iff ext tx context _ _ hres).mp
      (continuation_accepted ext tx context hcont hok)).2.2.2.1
  · intro srcAccount hacc hpass hprior
    rw [checkTx_continuation ext tx context srcAccount hcont hacc hpass]
    exact checkPriorUtxo_wrong_txUid ext tx context _ _ hres hprior hne2

/-- C8 (failing input): the link with id 1, sent by S, was committed at height 1 and
locks 50 WICC to B for 10 blocks with a collect timeout of 20. At height 1000, long
after `1 + 10 + 20`, the reclaim by the original sender S is rejected by the
ownership check of lines 87-90, although every other condition is satisfied: the
same transaction sent by B is accepted at that height. The timeout test of lines
74-85 ("reclaiming the unspent prior utxo") fires for the beneficiary only, whose
claim is rejected at height 20 as not yet timed out. -/
theorem original_sender_reclaim_rejected :
    (claimTx uidS nullOutput).prior_utxo_txid ≠ 0
      ∧ (claimContext 1000 1 timeoutLinkTx).cw.txUtxoCache.GetUtxoTx
          (claimTx uidS nullOutput).prior_utxo_txid = some (1, timeoutLinkTx)
      ∧ (claimTx uidS nullOutput).txUid = timeoutLinkTx.txUid
      ∧ timeoutLinkTx.txUid ≠ timeoutLinkTx.utxo.to_uid
      ∧ 1 + timeoutLinkTx.utxo.lock_duration + timeoutLinkTx.utxo.htlc_cond.collect_timeout
          ≤ 1000
      ∧ CheckTx extOk (claimTx uidS nullOutput) (claimContext 1000 1 timeoutLinkTx)
          = .error wrongTxUidFailure
      ∧ CheckTx extOk (claimTx uidB nullOutput) (claimContext 1000 1 timeoutLinkTx) = .ok ()
      ∧ CheckTx extOk (claimTx uidB nullOutput) (claimContext 20 1 timeoutLinkTx)
          = .error notTimeoutFailure := by
  decide

/-! ## C9: the prior link must resolve to a non-null output -/

/-- C9: `CheckTx` accepts a continuation transaction only if `prior_utxo_txid` resolves
in the UTXO-chain store and the resolved prior output is not null. When the generic
checks pass and the sender account exists, an unresolvable `prior_utxo_txid` is
rejected by the statement of lines 48-51 (`load-prior-utxo-err`) and a prior link
whose `utxo.is_null` is true by the statement of lines 54-57
(`prior-utxo-null-err`), whatever the other fields of the transaction are. -/
theorem prior_link_required (ext : External) (tx : CCoinUTXOTx) (context : CTxExecuteContext)
    (hcont : tx.prior_utxo_txid ≠ 0) :
    (CheckTx ext tx context = .ok () →
        ∃ priorTxBlockHeight priorUtxoTx,
          context.cw.txUtxoCache.GetUtxoTx tx.prior_utxo_txid
            = some (priorTxBlockHeight, priorUtxoTx)
          ∧ priorUtxoTx.utxo.is_null = false)
      ∧ (context.cw.txUtxoCache.GetUtxoTx tx.prior_utxo_txid = none →
          ∀ srcAccount, context.cw.accountCache.GetAccount tx.txUid = some srcAccount →
            GenericChecksPass ext tx context srcAccount →
            CheckTx ext tx context = .error loadPriorFailure)
      ∧ (∀ priorTxBlockHeight priorUtxoTx,
          context.cw.txUtxoCache.GetUtxoTx tx.prior_utxo_txid
            = some (priorTxBlockHeight, priorUtxoTx) →
          priorUtxoTx.utxo.is_null = true →
          ∀ srcAccount, context.cw.accountCache.GetAccount tx.txUid = some srcAccount →
            GenericChecksPass ext tx context srcAccount →
            CheckTx ext tx context = .error priorNullFailure) := by
  refine ⟨fun hok => ?_, fun hnone srcAccount hacc hpass => ?_,
    fun priorTxBlockHeight priorUtxoTx hres hnull srcAccount hacc hpass => ?_⟩
  · have hbranch := continuation_accepted ext tx context hcont hok
    cases hres : context.cw.txUtxoCache.GetUtxoTx tx.prior_utxo_txid with
    | none =>
      unfold checkPriorUtxo at hbranch
      simp [hres] at hbranch
    | some found =>
      obtain ⟨priorTxBlockHeight, priorUtxoTx⟩ := found
      exact ⟨priorTxBlockHeight, priorUtxoTx, rfl,
        ((checkPriorUtxo_ok_iff ext tx context _ _ hres).mp hbranch).1⟩
  · rw [checkTx_continuation ext tx context srcAccount hcont hacc hpass]
    unfold checkPriorUtxo
    simp only [hnone]
    rfl
  · rw [checkTx_continuation ext tx context srcAccount hcont hacc hpass]
    unfold checkPriorUtxo
    simp only [hres]
    rw [if_pos hnull]
    rfl

/-- Scenario 4: B names the prior link 1 in a ledger whose UTXO-chain store is empty;
the hypothesis of `prior_link_required` holds and the transaction is rejected by
the lookup. The same claim against a link whose output is null is rejected by the
null test. -/
theorem prior_link_required_witness :
    (claimTx uidB nullOutput).prior_utxo_txid ≠ 0
      ∧ CheckTx extOk (claimTx uidB nullOutput)
          { height := 15, index := 0, cw := ledger 49 10 [] } = .error loadPriorFailure
      ∧ CheckTx extOk (claimTx uidB nullOutput)
          (claimContext 15 1 (mkTx uidS 1 0 nullOutput)) = .error priorNullFailure :=
  ⟨by decide,
    (prior_link_required extOk (claimTx uidB nullOutput)
      { height := 15, index := 0, cw := ledger 49 10 [] } (by decide)).2.1 (by decide)
      (wiccAccount uidB 10) rfl ⟨rfl, rfl, rfl, by decide, rfl, rfl⟩,
    (prior_link_required extOk (claimTx uidB nullOutput)
      (claimContext 15 1 (mkTx uidS 1 0 nullOutput)) (by decide)).2.2 1 (mkTx uidS 1 0 nullOutput)
      (by decide) (by decide) (wiccAccount uidB 10) rfl ⟨rfl, rfl, rfl, by decide, rfl, rfl⟩⟩

/-! ## C10: the symbol of the output is not compared -/

/-- C10, as stated, fails: B claims the link of scenario 1 (50 WICC locked) at height 15
and locks 50 WUSD again. The output is not null, `CheckTx` accepts, and the symbol of
the output differs from the symbol of the prior output. -/
theorem symbol_changed_accepted :
    (withSymbol (claimTx uidB (wiccOutput 50 uidS 0)) "WUSD").prior_utxo_txid ≠ 0
      ∧ (withSymbol (claimTx uidB (wiccOutput 50 uidS 0)) "WUSD").utxo.is_null = false
      ∧ (claimContext 15 1 genesisTx).cw.txUtxoCache.GetUtxoTx
          (withSymbol (claimTx uidB (wiccOutput 50 uidS 0)) "WUSD").prior_utxo_txid
          = some (1, genesisTx)
      ∧ CheckTx extOk (withSymbol (claimTx uidB (wiccOutput 50 uidS 0)) "WUSD")
          (claimContext 15 1 genesisTx) = .ok ()
      ∧ (withSymbol (claimTx uidB (wiccOutput 50 uidS 0)) "WUSD").utxo.coin_symbol
          ≠ genesisTx.utxo.coin_symbol := by
  decide

/-- C10 (amended): the continuation branch of `CheckTx` compares amounts and never reads
`utxo.coin_symbol`. For every continuation transaction that `CheckTx` accepts and
every symbol, the same transaction with the symbol of its output replaced is accepted
as well, provided that the generic checks, which are defined outside this file, pass
on it; and an accepted non-null output is within the amount of the prior output,
whatever the two symbols are. -/
theorem symbol_not_compared (ext : External) (tx : CCoinUTXOTx) (context : CTxExecuteContext)
    (symbol : TokenSymbol) (srcAccount : CAccount) (priorTxBlockHeight : Nat)
    (priorUtxoTx : CCoinUTXOTx)
    (hcont : tx.prior_utxo_txid ≠ 0)
    (hres : context.cw.txUtxoCache.GetUtxoTx tx.prior_utxo_txid
      = some (priorTxBlockHeight, priorUtxoTx))
    (hacc : context.cw.accountCache.GetAccount tx.txUid = some srcAccount)
    (haccept : CheckTx ext tx context = .ok ())
    (hpass : GenericChecksPass ext (withSymbol tx symbol) context srcAccount) :
    CheckTx ext (withSymbol tx symbol) context = .ok ()
      ∧ (tx.utxo.is_null = false →
          0 < tx.utxo.coin_amount ∧ tx.utxo.coin_amount ≤ priorUtxoTx.utxo.coin_amount) := by
  have hbranch := (checkPriorUtxo_ok_iff ext tx context _ _ hres).mp
    (continuation_accepted ext tx context hcont haccept)
  refine ⟨?_, hbranch.2.2.2.2.2⟩
  have hcont2 : (withSymbol tx symbol).prior_utxo_txid ≠ 0 := hcont
  have hacc2 : context.cw.accountCache.GetAccount (withSymbol tx symbol).txUid
      = some srcAccount := hacc
  have hres2 : context.cw.txUtxoCache.GetUtxoTx (withSymbol tx symbol).prior_utxo_txid
      = some (priorTxBlockHeight, priorUtxoTx) := hres
  rw [checkTx_continuation ext (withSymbol tx symbol) context srcAccount hcont2 hacc2 hpass]
  exact (checkPriorUtxo_ok_iff ext (withSymbol tx symbol) context _ _ hres2).mpr hbranch

/-- The claim by B of the link of scenario 1 that locks 50 WICC again is accepted at
height 15, so is the same claim with the output symbol replaced by WUSD, and the
amount 50 is within the prior amount 50. -/
theorem symbol_not_compared_witness :
    (claimTx uidB (wiccOutput 50 uidS 0)).prior_utxo_txid ≠ 0
      ∧ CheckTx extOk (claimTx uidB (wiccOutput 50 uidS 0)) (claimContext 15 1 genesisTx)
          = .ok ()
      ∧ CheckTx extOk (withSymbol (claimTx uidB (wiccOutput 50 uidS 0)) "WUSD")
          (claimContext 15 1 genesisTx) = .ok ()
      ∧ ((claimTx uidB (wiccOutput 50 uidS 0)).utxo.is_null = false →
          0 < (claimTx uidB (wiccOutput 50 uidS 0)).utxo.coin_amount
            ∧ (claimTx uidB (wiccOutput 50 uidS 0)).utxo.coin_amount
                ≤ genesisTx.utxo.coin_amount) :=
  ⟨by decide, by decide,
    symbol_not_compared extOk (claimTx uidB (wiccOutput 50 uidS 0)) (claimContext 15 1 genesisTx)
      "WUSD" (wiccAccount uidB 10) 1 genesisTx (by decide) (by decide) rfl (by decide)
      ⟨rfl, rfl, rfl, by decide, rfl, rfl⟩⟩

/-! ## C11: the receipt of an executed transaction -/

/-- C11: for every transaction on which `ExecuteTx` succeeds: if `utxo.is_null` is false,
the receipts kept under the hash of the transaction are exactly one record
(from `txUid`, to `utxo.to_uid`, symbol `utxo.coin_symbol`, amount `utxo.coin_amount`,
code `TRANSFER_UTXO_COINS`); if `utxo.is_null` is true, the receipt store is left as it
was: no receipt is written. -/
theorem receipts_after_execute (ext : External) (tx : CCoinUTXOTx) (context : CTxExecuteContext)
    (hok : (ExecuteTx ext tx context).1 = .ok ()) :
    (tx.utxo.is_null = false →
        (ExecuteTx ext tx context).2.txReceiptCache.GetTxReceipts (ext.GetHash tx)
          = some [{ from_uid := tx.txUid, to_uid := tx.utxo.to_uid,
                    coin_symbol := tx.utxo.coin_symbol, coin_amount := tx.utxo.coin_amount,
                    code := .TRANSFER_UTXO_COINS }])
      ∧ (tx.utxo.is_null = true →
          (ExecuteTx ext tx context).2.txReceiptCache = context.cw.txReceiptCache) := by
  obtain ⟨_, _, _, _, _, _, _, _, _, _, hrc⟩ := executeTx_ok_inv ext tx context hok
  constructor
  · intro hnull
    have hmk : makeReceipts tx = [(⟨tx.txUid, tx.utxo.to_uid, tx.utxo.coin_symbol,
        tx.utxo.coin_amount, .TRANSFER_UTXO_COINS⟩ : CReceipt)] := by
      unfold makeReceipts
      rw [if_pos hnull]
    rcases hrc with ⟨hnil, _⟩ | ⟨_, hset⟩
    · rw [hmk] at hnil
      cases hnil
    · rw [← hmk]
      exact getTxReceipts_setTxReceipts ext _ _ _ _ hset
  · intro hnull
    have hmk : makeReceipts tx = [] := by
      unfold makeReceipts
      rw [if_neg (by simp [hnull])]
    rcases hrc with ⟨_, hsame⟩ | ⟨hne, _⟩
    · exact hsame
    · exact absurd hmk hne

/-- The genesis link of scenario 1 executes, and the receipt store then holds, under the
hash of the link, the single record of 50 WICC from S to B; a claim by B that locks
nothing executes and leaves the receipt store empty. -/
theorem receipts_after_execute_witness :
    (ExecuteTx extOk genesisTx genesisContext).1 = .ok ()
      ∧ (ExecuteTx extOk genesisTx genesisContext).2.txReceiptCache.GetTxReceipts
          (extOk.GetHash genesisTx)
          = some [{ from_uid := uidS, to_uid := uidB, coin_symbol := "WICC", coin_amount := 50,
                    code := .TRANSFER_UTXO_COINS }]
      ∧ (ExecuteTx extOk (claimTx uidB nullOutput) (claimContext 15 1 genesisTx)).1 = .ok ()
      ∧ (ExecuteTx extOk (claimTx uidB nullOutput) (claimContext 15 1 genesisTx)).2.txReceiptCache
          = (claimContext 15 1 genesisTx).cw.txReceiptCache :=
  ⟨by decide, (receipts_after_execute extOk genesisTx genesisContext (by decide)).1 rfl,
    by decide,
    (receipts_after_execute extOk (claimTx uidB nullOutput) (claimContext 15 1 genesisTx)
      (by decide)).2 rfl⟩

/-! ## C12: execution of a continuation link touches the fee only -/

/-- C12: for every continuation transaction (`prior_utxo_txid` non-zero) on which
`ExecuteTx` succeeds, the account store afterwards holds the sender with, in every
symbol, the former free balance less `llFees` in `fee_symbol` and nothing else (no
`utxo.coin_amount` is debited), and every other identity resolves to the account it
resolved to before. -/
theorem continuation_execute_frame (ext : External) (tx : CCoinUTXOTx)
    (context : CTxExecuteContext) (srcAccount : CAccount)
    (hcont : tx.prior_utxo_txid ≠ 0)
    (hacc : context.cw.accountCache.GetAccount tx.txUid = some srcAccount)
    (hok : (ExecuteTx ext tx context).1 = .ok ()) :
    (∃ after, (ExecuteTx ext tx context).2.accountCache.GetAccount tx.txUid = some after
        ∧ ∀ symbol, after.free_amount symbol + (if symbol = tx.fee_symbol then tx.llFees else 0)
            = srcAccount.free_amount symbol)
      ∧ ∀ uid, uid ≠ tx.txUid →
          (ExecuteTx ext tx context).2.accountCache.GetAccount uid
            = context.cw.accountCache.GetAccount uid := by
  obtain ⟨loaded, registered, final, accountCache, hload, hreg, hdeb, hsave, hafter, _, _⟩ :=
    executeTx_ok_inv ext tx context hok
  rw [hacc] at hload
  cases hload
  have huid := getAccount_uid _ _ _ hacc
  obtain ⟨hruid, hrfree⟩ := generateRegID_some _ _ _ _ _ hreg
  obtain ⟨hfuid, hffree⟩ := debitAccount_ok _ _ _ _ hdeb
  have hfinal : final.uid = tx.txUid := by rw [hfuid, hruid, huid]
  rw [hafter]
  constructor
  · refine ⟨final, ?_, fun symbol => ?_⟩
    · have hget := getAccount_saveAccount _ _ _ _ hsave
      rwa [hfinal] at hget
    · have h := hffree symbol
      rw [hrfree] at h
      simp only [debitOf, hcont, false_and, if_false, Nat.add_zero] at h
      exact h
  · intro uid hne
    exact getAccount_saveAccount_other ext _ _ final uid hsave (by rw [hfinal]; exact hne)

/-- The claim by B of the link of scenario 1, executed at height 15 with a fee of 1 WICC:
B had 10 WICC and has 9, and the account of S is the one found before. -/
theorem continuation_execute_frame_witness :
    (claimTx uidB nullOutput).prior_utxo_txid ≠ 0
      ∧ (ExecuteTx extOk (claimTx uidB nullOutput) (claimContext 15 1 genesisTx)).1 = .ok ()
      ∧ (∃ after,
          (ExecuteTx extOk (claimTx uidB nullOutput) (claimContext 15 1 genesisTx)).2.accountCache.GetAccount
            uidB = some after ∧ after.free_amount "WICC" + 1 = 10)
      ∧ (ExecuteTx extOk (claimTx uidB nullOutput) (claimContext 15 1 genesisTx)).2.accountCache.GetAccount
          uidS = (claimContext 15 1 genesisTx).cw.accountCache.GetAccount uidS := by
  have h := continuation_execute_frame extOk (claimTx uidB nullOutput)
    (claimContext 15 1 genesisTx) (wiccAccount uidB 10) (by decide) rfl (by decide)
  obtain ⟨⟨after, hget, hbal⟩, hother⟩ := h
  refine ⟨by decide, by decide, ⟨after, hget, ?_⟩, hother uidS (by decide)⟩
  have h2 := hbal "WICC"
  simpa [claimTx, mkTx, wiccAccount] using h2

/-! ## C13: what a failed execution leaves behind -/

/-- C13, as stated, fails: with a receipt store that refuses the write, `ExecuteTx` on the
genesis link of scenario 1 returns failure (`set-tx-receipt-failed`), and the account
store then holds S with 49 WICC where it held S with 100 WICC: the account was saved
before the receipts were written. -/
theorem failed_execute_keeps_saved_account :
    (ExecuteTx extReceiptsFail genesisTx genesisContext).1
        = .error (setReceiptsFailure extReceiptsFail genesisTx)
      ∧ ((ExecuteTx extReceiptsFail genesisTx genesisContext).2.accountCache.GetAccount uidS).map
          (fun a => a.free_amount "WICC") = some 49
      ∧ (genesisContext.cw.accountCache.GetAccount uidS).map (fun a => a.free_amount "WICC")
          = some 100 := by
  decide

/-- C13 (amended): for every transaction and ledger on which `ExecuteTx` returns failure,
the receipt store and the UTXO-chain store are exactly as they were before the call,
and for every failure other than the receipt store failure (missing account,
`GenerateRegID` failure, insufficient fee, insufficient locked funds, account save
failure) so is the account store. On the receipt store failure the account store is
the one `SaveAccount` produced for the debited sender account. -/
theorem failed_execute_frame (ext : External) (tx : CCoinUTXOTx) (context : CTxExecuteContext)
    (e : Failure) (herr : (ExecuteTx ext tx context).1 = .error e) :
    (ExecuteTx ext tx context).2.txReceiptCache = context.cw.txReceiptCache
      ∧ (ExecuteTx ext tx context).2.txUtxoCache = context.cw.txUtxoCache
      ∧ (e ≠ setReceiptsFailure ext tx →
          (ExecuteTx ext tx context).2.accountCache = context.cw.accountCache)
      ∧ (e = setReceiptsFailure ext tx →
          ∃ loaded registered srcAccount,
            context.cw.accountCache.GetAccount tx.txUid = some loaded
              ∧ GenerateRegID ext tx context loaded = some registered
              ∧ debitAccount ext tx registered = .ok srcAccount
              ∧ context.cw.accountCache.SaveAccount ext srcAccount
                  = some (ExecuteTx ext tx context).2.accountCache) := by
  rcases executeTx_error_inv ext tx context e herr with ⟨hsame, hne⟩ |
    ⟨he, loaded, registered, srcAccount, accountCache, hacc, hreg, hdeb, hsave, hafter⟩
  · refine ⟨by rw [hsame], by rw [hsame], fun _ => by rw [hsame], fun he => absurd he hne⟩
  · refine ⟨by rw [hafter], by rw [hafter], fun hne => absurd he hne, fun _ => ?_⟩
    exact ⟨loaded, registered, srcAccount, hacc, hreg, hdeb, by rw [hafter]; exact hsave⟩

/-- A genesis link by S that locks 200 WICC against a balance of 100 fails in `ExecuteTx`
with a failure other than the receipt store failure, and the account store is the
one before the call. -/
theorem failed_execute_frame_witness :
    (ExecuteTx extOk (mkTx uidS 1 0 (wiccOutput 200 uidB 10)) genesisContext).1
        = .error (dosWith
            "CCoinUTXOTx::ExecuteTx, failed to deduct coin_amount in txUid %s account"
            [.text "R1"] .UPDATE_ACCOUNT_FAIL "insufficient-fund-utxo")
      ∧ (ExecuteTx extOk (mkTx uidS 1 0 (wiccOutput 200 uidB 10)) genesisContext).2.accountCache
          = genesisContext.cw.accountCache :=
  ⟨by decide,
    (failed_execute_frame extOk (mkTx uidS 1 0 (wiccOutput 200 uidB 10)) genesisContext
      (dosWith "CCoinUTXOTx::ExecuteTx, failed to deduct coin_amount in txUid %s account"
        [.text "R1"] .UPDATE_ACCOUNT_FAIL "insufficient-fund-utxo")
      (by decide)).2.2.1 (by decide)⟩

/-! ## C14: execution does not index the transaction -/

/-- C14, as stated, fails: `ExecuteTx` succeeds on the genesis link of scenario 1 at
height 1, and afterwards the UTXO-chain store does not resolve the id of the link. -/
theorem executed_link_not_indexed :
    (ExecuteTx extOk genesisTx genesisContext).1 = .ok ()
      ∧ (ExecuteTx extOk genesisTx genesisContext).2.txUtxoCache.GetUtxoTx
          (extOk.GetHash genesisTx) = none := by
  decide

/-- C14 (amended): `ExecuteTx` never writes to the UTXO-chain store: for every
transaction, height and ledger, whether it succeeds or not, the UTXO-chain store after
the call is the one before it, so the store resolves the id of the transaction
afterwards exactly when it did before. -/
theorem execute_keeps_utxo_store (ext : External) (tx : CCoinUTXOTx)
    (context : CTxExecuteContext) :
    (ExecuteTx ext tx context).2.txUtxoCache = context.cw.txUtxoCache
      ∧ (ExecuteTx ext tx context).2.txUtxoCache.GetUtxoTx (ext.GetHash tx)
          = context.cw.txUtxoCache.GetUtxoTx (ext.GetHash tx) := by
  have h := executeTx_txUtxoCache ext tx context
  exact ⟨h, by rw [h]⟩

/-! ## C15: what a rejection hands to the validation state -/

/-- What every rejection of `CheckTx` passes to `state.DoS`: the two calls before the
branches (`bad-publickey`, `bad-getaccount`) pass `REJECT_INVALID` and their reason;
every other `DoS` call of the function, that is every failing check of the genesis
and continuation branches, passes neither a reject code nor a reason, both being
arguments of `ERRORMSG` instead. -/
theorem checkTx_dos_arguments (ext : External) (tx : CCoinUTXOTx) (context : CTxExecuteContext)
    (call : DoSCall) (h : CheckTx ext tx context = .error (.dos call)) :
    (call.chRejectCode = some .REJECT_INVALID
        ∧ (call.strRejectReason = some "bad-publickey"
            ∨ call.strRejectReason = some "bad-getaccount"))
      ∨ (call.chRejectCode = none ∧ call.strRejectReason = none
          ∧ ∃ reason, call.errorArgs = [.code .REJECT_INVALID, .text reason]) := by
  unfold CheckTx at h
  split at h; · cases h
  split at h; · cases h
  split at h; · cases h
  split at h; · cases h
  split at h
  · cases h
    exact Or.inl ⟨rfl, Or.inl rfl⟩
  split at h
  · cases h
    exact Or.inl ⟨rfl, Or.inr rfl⟩
  split at h
  · rename_i e hbranch
    cases h
    have hex : ∃ msg reason, Failure.dos call = dosInside msg .REJECT_INVALID reason := by
      split at hbranch
      · exact checkFirstTimeUtxo_error _ _ _ hbranch
      · exact checkPriorUtxo_error _ _ _ _ hbranch
    obtain ⟨msg, reason, heq⟩ := hex
    unfold dosInside at heq
    cases heq
    exact Or.inr ⟨rfl, rfl, reason, rfl⟩
  · split at h <;> cases h

/-- C15 (failing input): a genesis transaction whose output is null is rejected by the
statement of lines 31-32, whose `DoS` call receives neither a reject code nor a
reject reason: `REJECT_INVALID` and `utxo-is-null` are arguments of `ERRORMSG`. The
same holds for the other checks of the two branches (here: a claim rejected as
locked), whereas the rejection of an unknown sender passes `REJECT_INVALID` and
`bad-getaccount` to `DoS`. -/
theorem branch_rejection_without_reason :
    CheckTx extOk (mkTx uidS 1 0 nullOutput) genesisContext
        = .error (.dos { level := 100, errorMsg := "CCoinUTXOTx::CheckTx, utxo is null!",
                         errorArgs := [.code .REJECT_INVALID, .text "utxo-is-null"],
                         chRejectCode := none, strRejectReason := none })
      ∧ CheckTx extOk (claimTx uidB nullOutput) (claimContext 5 1 genesisTx)
        = .error (.dos { level := 100,
                         errorMsg := "CCoinUTXOTx::CheckTx, prior utxo being locked!",
                         errorArgs := [.code .REJECT_INVALID, .text "prior-utxo-locked-err"],
                         chRejectCode := none, strRejectReason := none })
      ∧ CheckTx { extOk with CheckFee := fun _ _ => true } (mkTx (.regId 3) 1 0 nullOutput)
          genesisContext
        = .error (.dos { level := 100, errorMsg := "CCoinUTXOTx::CheckTx, read account failed",
                         errorArgs := [], chRejectCode := some .REJECT_INVALID,
                         strRejectReason := some "bad-getaccount" }) := by
  decide

/-! ## C16: `CheckTx` reads the ledger and does not write to it -/

/-- The state-passing form agrees with `CheckTx`: with the read-only helpers built from
`External` it returns the verdict of `CheckTx` and the stores it received. -/
theorem checkTxSt_agrees (ext : External) (tx : CCoinUTXOTx) (context : CTxExecuteContext) :
    (CheckTxSt ext.readOnly tx context).1 = CheckTx ext tx context
      ∧ (CheckTxSt ext.readOnly tx context).2 = context.cw := by
  rw [checkTxSt_readOnly]
  exact ⟨rfl, rfl⟩

/-- The state-passing form does not keep the stores by construction: with a `CheckFee`
that empties the receipt store, the stores `CheckTxSt` returns on an accepted claim
are not the ones it received. -/
theorem checkTxSt_follows_helpers :
    (CheckTxSt extFeeWrites (claimTx uidB nullOutput)
        { height := 15, index := 0,
          cw := { (claimContext 15 1 genesisTx).cw with
                  txReceiptCache := { entries := [(1, [])] } } }).1 = .ok ()
      ∧ (CheckTxSt extFeeWrites (claimTx uidB nullOutput)
          { height := 15, index := 0,
            cw := { (claimContext 15 1 genesisTx).cw with
                    txReceiptCache := { entries := [(1, [])] } } }).2.txReceiptCache
        ≠ { entries := [(1, [])] } := by
  decide

/-- C16: `CheckTx` never mutates ledger state. The helpers it calls are defined outside
the excerpt; provided each of them leaves the stores as it finds them (`ReadOnly`),
for every transaction, height and ledger, whether `CheckTx` accepts or rejects, the
account store, the UTXO-chain store and the receipt store after the call equal those
before it: the body of `CheckTx` adds no write of its own. Provided moreover that the
helpers that receive the whole context read its height and its stores only, the
accept/reject result is the same in any two contexts with the same height and the
same ledger: it is a function of the transaction, the height and the ledger only. -/
theorem checkTx_frame (es : ExternalSt) (tx : CCoinUTXOTx) (context : CTxExecuteContext)
    (hro : ReadOnly es) (hdep : ReadsHeightAndStores es) :
    (CheckTxSt es tx context).2 = context.cw
      ∧ (CheckTxSt es tx context).2.accountCache = context.cw.accountCache
      ∧ (CheckTxSt es tx context).2.txUtxoCache = context.cw.txUtxoCache
      ∧ (CheckTxSt es tx context).2.txReceiptCache = context.cw.txReceiptCache
      ∧ ∀ other : CTxExecuteContext, other.height = context.height → other.cw = context.cw →
          (CheckTxSt es tx other).1 = (CheckTxSt es tx context).1 := by
  have hstores := checkTxSt_stores es tx context hro
  refine ⟨hstores, by rw [hstores], by rw [hstores], by rw [hstores], ?_⟩
  intro other hheight hcw
  exact checkTxSt_verdict_congr es tx other context hro hdep hheight hcw

/-- The claim by B of the link of scenario 1, with the read-only helpers built from
`extOk`: the hypotheses of `checkTx_frame` hold; the claim is rejected at height 5 and
accepted at height 15, the stores being left as they were both times, and it is
accepted as well in a context that differs from the second in its index only. -/
theorem checkTx_frame_witness :
    ReadOnly extOk.readOnly
      ∧ ReadsHeightAndStores extOk.readOnly
      ∧ (CheckTxSt extOk.readOnly (claimTx uidB nullOutput) (claimContext 5 1 genesisTx)).1
          = .error lockedFailure
      ∧ (CheckTxSt extOk.readOnly (claimTx uidB nullOutput) (claimContext 5 1 genesisTx)).2
          = (claimContext 5 1 genesisTx).cw
      ∧ (CheckTxSt extOk.readOnly (claimTx uidB nullOutput) (claimContext 15 1 genesisTx)).1
          = .ok ()
      ∧ (CheckTxSt extOk.readOnly (claimTx uidB nullOutput) (claimContext 15 1 genesisTx)).2
          = (claimContext 15 1 genesisTx).cw
      ∧ (CheckTxSt extOk.readOnly (claimTx uidB nullOutput)
            { claimContext 15 1 genesisTx with index := 7 }).1
          = (CheckTxSt extOk.readOnly (claimTx uidB nullOutput)
              (claimContext 15 1 genesisTx)).1 :=
  ⟨readOnly_readOnly extOk, readsHeightAndStores_readOnly extOk extOk_checkFee_congr,
    by decide,
    (checkTx_frame extOk.readOnly (claimTx uidB nullOutput) (claimContext 5 1 genesisTx)
      (readOnly_readOnly extOk) (readsHeightAndStores_readOnly extOk extOk_checkFee_congr)).1,
    by decide,
    (checkTx_frame extOk.readOnly (claimTx uidB nullOutput) (claimContext 15 1 genesisTx)
      (readOnly_readOnly extOk) (readsHeightAndStores_readOnly extOk extOk_checkFee_congr)).1,
    (checkTx_frame extOk.readOnly (claimTx uidB nullOutput) (claimContext 15 1 genesisTx)
      (readOnly_readOnly extOk)
      (readsHeightAndStores_readOnly extOk extOk_checkFee_congr)).2.2.2.2 _ rfl rfl⟩

/-! ## C17: execute followed by undo -/

/-- The undo of the specification does remove an index entry that the delta records: with
a delta whose `headIndexed` is set, the UTXO-chain store it returns does not resolve
the id of the transaction. -/
theorem undo_removes_recorded_head (ext : External) (tx : CCoinUTXOTx) (cw undone : CCacheWrapper)
    (receiptsWritten : Bool)
    (h : UndoExecuteTx ext tx cw { receiptsWritten := receiptsWritten, headIndexed := true }
      = some undone) :
    undone.txUtxoCache.GetUtxoTx (ext.GetHash tx) = none := by
  unfold UndoExecuteTx at h
  split at h
  · cases h
  · cases h
    simp only [if_true, CTxUTXODBCache.GetUtxoTx]
    rw [find_filter_not_eq_none
      (fun e : uint256 × Nat × CCoinUTXOTx => decide (e.1 = ext.GetHash tx))]
    rfl

/-- C17: for every transaction on which `ExecuteTx` succeeds, the undo of the
specification, given the state delta recorded for that execution and applied to the
stores `ExecuteTx` leaves, succeeds; the sender account then has in every symbol the
free balance it had before the execution (the fee and, for a genesis link, the locked
amount are credited back); the receipt record is removed (no receipt is kept under the
id of a transaction with a non-null output, and the receipt store of a transaction
with a null output, for which none was written, is the one before the execution); and
the UTXO-chain store, the chain-head index, is the one before the execution. -/
theorem execute_undo_round_trip (ext : External) (tx : CCoinUTXOTx)
    (context : CTxExecuteContext) (srcAccount : CAccount)
    (hacc : context.cw.accountCache.GetAccount tx.txUid = some srcAccount)
    (hok : (ExecuteTx ext tx context).1 = .ok ()) :
    ∃ undone,
      UndoExecuteTx ext tx (ExecuteTx ext tx context).2 (recordDelta ext tx context) = some undone
      ∧ (∃ restored, undone.accountCache.GetAccount tx.txUid = some restored
          ∧ restored.free_amount = srcAccount.free_amount)
      ∧ (tx.utxo.is_null = false →
          undone.txReceiptCache.GetTxReceipts (ext.GetHash tx) = none)
      ∧ (tx.utxo.is_null = true → undone.txReceiptCache = context.cw.txReceiptCache)
      ∧ undone.txUtxoCache = context.cw.txUtxoCache := by
  obtain ⟨after, hget, hdebit⟩ := executeTx_ok_debits ext tx context srcAccount hacc hok
  obtain ⟨_, _, _, _, _, _, _, _, _, _, hrc⟩ := executeTx_ok_inv ext tx context hok
  have hutxo := executeTx_txUtxoCache ext tx context
  have hafteruid := getAccount_uid _ _ _ hget
  have hhead : (recordDelta ext tx context).headIndexed = false := by
    simp only [recordDelta, hutxo]
    cases context.cw.txUtxoCache.GetUtxoTx (ext.GetHash tx) <;> rfl
  unfold UndoExecuteTx
  simp only [hget, hhead]
  refine ⟨_, rfl, ⟨undoAccount tx after, ?_, ?_⟩, ?_, ?_, ?_⟩
  · simp only [CAccountDBCache.GetAccount, List.find?_cons]
    rw [undo_uid, hafteruid]
    simp
  · funext symbol
    rw [undo_credits]
    exact hdebit symbol
  · intro hnull
    have hmk : (makeReceipts tx).isEmpty = false := by
      unfold makeReceipts
      rw [if_pos hnull]
      rfl
    simp only [recordDelta, hmk, Bool.not_false, if_true, CTxReceiptDBCache.GetTxReceipts]
    rw [find_filter_not_eq_none (fun e : uint256 × List CReceipt => decide (e.1 = ext.GetHash tx))]
    rfl
  · intro hnull
    have hmk : makeReceipts tx = [] := by
      unfold makeReceipts
      rw [if_neg (by simp [hnull])]
    simp only [recordDelta, hmk, List.isEmpty_nil, Bool.not_true, Bool.false_eq_true, if_false]
    rcases hrc with ⟨_, hsame⟩ | ⟨hne, _⟩
    · exact hsame
    · exact absurd hmk hne
  · simp only [Bool.false_eq_true, if_false]
    exact hutxo

/-- The genesis link of scenario 1 executed on the ledger where S holds 100 WICC and
then undone: S holds 100 WICC again, no receipt is kept under the id of the link and
the UTXO-chain store is the empty one of before. The same on the ledger that already
resolves the id of the link: the UTXO-chain store after the undo still resolves it. -/
theorem execute_undo_round_trip_witness :
    (ExecuteTx extOk genesisTx genesisContext).1 = .ok ()
      ∧ (∃ undone,
          UndoExecuteTx extOk genesisTx (ExecuteTx extOk genesisTx genesisContext).2
            (recordDelta extOk genesisTx genesisContext) = some undone
          ∧ (∃ restored, undone.accountCache.GetAccount uidS = some restored
              ∧ restored.free_amount "WICC" = 100)
          ∧ undone.txReceiptCache.GetTxReceipts (extOk.GetHash genesisTx) = none
          ∧ undone.txUtxoCache = genesisContext.cw.txUtxoCache)
      ∧ (ExecuteTx extOk genesisTx replayContext).1 = .ok ()
      ∧ ∃ undone,
          UndoExecuteTx extOk genesisTx (ExecuteTx extOk genesisTx replayContext).2
            (recordDelta extOk genesisTx replayContext) = some undone
          ∧ undone.txUtxoCache.GetUtxoTx (extOk.GetHash genesisTx) = some (1, genesisTx) := by
  obtain ⟨undone, hundo, ⟨restored, hget, hfree⟩, hrc, _, hutxo⟩ :=
    execute_undo_round_trip extOk genesisTx genesisContext (wiccAccount uidS 100) rfl
      (by decide)
  obtain ⟨undone2, hundo2, _, _, _, hutxo2⟩ :=
    execute_undo_round_trip extOk genesisTx replayContext (wiccAccount uidS 100) rfl
      (by decide)
  refine ⟨by decide, ⟨undone, hundo, ⟨restored, hget, ?_⟩, hrc rfl, hutxo⟩, by decide,
    undone2, hundo2, ?_⟩
  · rw [hfree]
    decide
  · rw [hutxo2]
    decide

/-! ## C18: the queue keeps its bound -/

/-- C18: starting from an empty queue, after any sequence of completed `Push` and `Pop`
calls the length reported by `Len` is at most `MSG_QUEUE_MAX_LEN` (10000); on the
queue so reached a `Push` completes only when the length is below 10000 and then
increases it by exactly one, a `Pop` that returns true decreases it by exactly one,
a `Pop` that returns false leaves the queue unchanged, and `Full` is true exactly
when the length equals 10000. -/
theorem queue_bound {T : Type} (ops : List (MsgOp T)) (q : MsgQueue T)
    (hrun : MsgQueue.run { mq := [] } ops = some q) :
    q.Len ≤ MSG_QUEUE_MAX_LEN
      ∧ MSG_QUEUE_MAX_LEN = 10000
      ∧ (∀ t q1, q.Push t = some q1 → q.Len < MSG_QUEUE_MAX_LEN ∧ q1.Len = q.Len + 1)
      ∧ (∀ target, (q.Pop target).1 = true → (q.Pop target).2.2.Len + 1 = q.Len)
      ∧ (∀ target, (q.Pop target).1 = false →
          (q.Pop target).2.2 = q ∧ (q.Pop target).2.2.Len = q.Len)
      ∧ (q.Full = true ↔ q.Len = MSG_QUEUE_MAX_LEN) := by
  have hle : q.Len ≤ MSG_QUEUE_MAX_LEN :=
    run_len_le ops { mq := [] } q (by simp [MsgQueue.Len]) hrun
  refine ⟨hle, rfl, ?_, ?_, ?_, ?_⟩
  · intro t q1 hpush
    unfold MsgQueue.Push at hpush
    split_ifs at hpush with hfull
    cases hpush
    simp only [MsgQueue.Len] at hle ⊢
    exact ⟨by omega, by simp⟩
  · intro target hpop
    unfold MsgQueue.Pop at hpop ⊢
    cases hq : q.mq with
    | nil => simp [hq] at hpop
    | cons front rest => simp [MsgQueue.Len, hq]
  · intro target hpop
    unfold MsgQueue.Pop at hpop ⊢
    cases hq : q.mq with
    | nil => simp
    | cons front rest => simp [hq] at hpop
  · simp [MsgQueue.Full, MsgQueue.Len]

/-- Two pushes and a pop on the empty queue of numbers: the calls complete, the queue
holds one item, a further push completes and gives length two, a pop returns true
and gives length zero, and the queue is not full. -/
theorem queue_bound_witness :
    MsgQueue.run { mq := [] } [MsgOp.push 1, MsgOp.push 2, MsgOp.pop none]
        = some ({ mq := [2] } : MsgQueue Nat)
      ∧ ({ mq := [2] } : MsgQueue Nat).Len ≤ MSG_QUEUE_MAX_LEN
      ∧ (({ mq := [2] } : MsgQueue Nat).Push 3).map MsgQueue.Len = some 2
      ∧ (({ mq := [2] } : MsgQueue Nat).Pop none).2.2.Len + 1 = 1
      ∧ ({ mq := [2] } : MsgQueue Nat).Full = false := by
  have h := queue_bound [MsgOp.push 1, MsgOp.push 2, MsgOp.pop none]
    ({ mq := [2] } : MsgQueue Nat) (by decide)
  exact ⟨by decide, h.1, by decide, h.2.2.2.1 none (by decide), by decide⟩

/-! ## C19: the queue is first-in first-out -/

/-- C19: for every list of at most `MSG_QUEUE_MAX_LEN` items pushed in order onto an
empty queue, every push completes, the successive `Pop` calls with a non-null target
return true and yield the items in exactly the order they were pushed, and the next
`Pop` on the then-empty queue returns false and leaves the target unchanged. -/
theorem queue_fifo {T : Type} (items : List T) (cell : T)
    (hlen : items.length ≤ MSG_QUEUE_MAX_LEN) :
    ∃ q, MsgQueue.pushAll { mq := [] } items = some q
      ∧ (MsgQueue.popN cell q items.length).1 = items.map (fun x => (true, some x))
      ∧ (MsgQueue.popN cell q items.length).2 = { mq := [] }
      ∧ (MsgQueue.popN cell q items.length).2.Pop (some cell)
          = (false, some cell, { mq := [] }) := by
  refine ⟨{ mq := items }, ?_, ?_, ?_, ?_⟩
  · have h := pushAll_eq items [] (by simpa using hlen)
    simpa using h
  · rw [popN_eq]
  · rw [popN_eq]
  · rw [popN_eq]
    rfl

/-- The items 7, 8, 9 pushed onto the empty queue come out as 7, 8, 9, and the fourth
pop returns false with its target cell still holding 0. -/
theorem queue_fifo_witness :
    [7, 8, 9].length ≤ MSG_QUEUE_MAX_LEN
      ∧ ∃ q : MsgQueue Nat, MsgQueue.pushAll { mq := [] } [7, 8, 9] = some q
          ∧ (MsgQueue.popN 0 q 3).1 = [(true, some 7), (true, some 8), (true, some 9)]
          ∧ (MsgQueue.popN 0 q 3).2.Pop (some 0) = (false, some 0, { mq := [] }) := by
  obtain ⟨q, hpush, hpop, _, hlast⟩ := queue_fifo [7, 8, 9] 0 (by decide)
  exact ⟨by decide, q, hpush, hpop, hlast⟩

/-! ## C20: the reward transaction built from its arguments -/

/-- C20 (failing input): the constructor called with the coin type 1, 100 coins and
height 5 on storage that holds 0 builds a transaction whose `coins` is 100 and whose
`height` is 5, but whose `coinType` is 0, not 1, so that `GetValues` returns the map
from 0 to 100; whatever the arguments, `coinType` is the content of the storage.
`GetFee` returns 0. -/
theorem reward_coin_type_not_set :
    (CCoinRewardTx.construct 0 uidS 1 100 5).coinType = 0
      ∧ (CCoinRewardTx.construct 0 uidS 1 100 5).coinType ≠ 1
      ∧ (CCoinRewardTx.construct 0 uidS 1 100 5).coins = 100
      ∧ (CCoinRewardTx.construct 0 uidS 1 100 5).height = 5
      ∧ (CCoinRewardTx.construct 0 uidS 1 100 5).GetValues = [(0, 100)]
      ∧ (CCoinRewardTx.construct 0 uidS 1 100 5).GetFee = 0
      ∧ ∀ storage txUid c n h,
          (CCoinRewardTx.construct storage txUid c n h).coinType = storage
            ∧ (CCoinRewardTx.construct storage txUid c n h).GetValues = [(storage, n)] := by
  refine ⟨rfl, by decide, rfl, rfl, rfl, rfl, fun _ _ _ _ _ => ⟨rfl, rfl⟩⟩

end WaykiChain
